import Mathlib

/-! Step tracker: `spentcalories` and `daysteps`

A shallow embedding of the two Go packages
`internal/spentcalories/spentcalories.go` and `internal/daysteps/daysteps.go`.

Modelling conventions.

* A Go `string` is modelled by its text: a Lean `String` at the interface of the
  repository's functions and the `List Char` of its characters inside the
  standard-library models (`strings.Split`, `strings.TrimSpace`, ...).  Only
  valid UTF-8 inputs are covered.
* Go `int` is the 64-bit `int`; a parsed value is an `Int` inside the `int64`
  range.  `time.Duration` is an `Int` number of nanoseconds.
* Go `float64` has two readings.  The functions of the two packages are first given
  over exact rational arithmetic (`ℚ`), rounding left out: the statements on
  formulas, signs, errors and control flow are made on these.  They are given a
  second time over `float64.F64` (namespaces `spentcalories.f64`, `daysteps.f64`),
  where every operation is rounded to binary64 (nearest, ties to even) and may
  give an infinity or NaN: the statements on the text that is printed are made on
  these.  The sign of a zero is not represented; no successful call prints a
  negative zero.
* A Go result `(v, err)` is a Lean pair whose last component is an
  `Option TrackerError`; `none` is the `nil` error.
* `log.Println` only writes to the log and is left out.
-/

/-! ## Standard-library models -/

namespace unicode

/-- Go `unicode.IsSpace`: the Latin-1 spaces `\t \n \v \f \r`, space, U+0085, U+00A0 and
the characters with the Unicode White_Space property. -/
def IsSpace (r : Char) : Bool :=
  let n := r.toNat
  (decide (9 ≤ n) && decide (n ≤ 13)) || n == 0x20 || n == 0x85 || n == 0xA0 ||
  n == 0x1680 || (decide (0x2000 ≤ n) && decide (n ≤ 0x200a)) ||
  n == 0x2028 || n == 0x2029 || n == 0x202f || n == 0x205f || n == 0x3000

end unicode

namespace strings

/-- First field and remaining fields of `s` cut at every occurrence of `sep`. -/
def splitFields (sep : Char) : List Char → List Char × List (List Char)
  | [] => ([], [])
  | c :: cs =>
    let r := splitFields sep cs
    if c = sep then ([], r.1 :: r.2) else (c :: r.1, r.2)

/-- Go `strings.Split(s, sep)` for a one-character separator: the fields between
the separators, in order; a string without separator is the only field. -/
def Split (s : List Char) (sep : Char) : List (List Char) :=
  (splitFields sep s).1 :: (splitFields sep s).2

/-- Go `strings.TrimSpace`: all leading and trailing white space removed. -/
def TrimSpace (s : List Char) : List Char :=
  (s.dropWhile unicode.IsSpace).rdropWhile unicode.IsSpace

/-- Go `strings.ContainsAny(s, chars)`: some character of `chars` occurs in `s`. -/
def ContainsAny (s chars : List Char) : Bool :=
  s.any (fun c => chars.elem c)

end strings

namespace strconv

/-- The two sentinel errors of package `strconv`. -/
inductive ErrKind where
  | ErrSyntax
  | ErrRange
  deriving DecidableEq, Repr

/-- Go `*strconv.NumError`: the failing function, the input and the reason. -/
structure NumError where
  Func : String
  Num : String
  Err : ErrKind
  deriving DecidableEq, Repr

/-- Is the character an ASCII decimal digit. -/
def isDigit (c : Char) : Bool :=
  decide (48 ≤ c.toNat) && decide (c.toNat ≤ 57)

/-- Value of an ASCII decimal digit. -/
def digitVal (c : Char) : Nat := c.toNat - 48

/-- The digit loop of `strconv.ParseUint(s, 10, 64)`: the first character that is
not a digit is a syntax error, the first overflow of `uint64` a range error. -/
def parseUintLoop : Nat → List Char → Except ErrKind Nat
  | n, [] => .ok n
  | n, c :: cs =>
    if !isDigit c then .error .ErrSyntax
    else if n ≥ (2 ^ 64 - 1) / 10 + 1 then .error .ErrRange
    else
      let n1 := n * 10 + digitVal c
      if n1 > 2 ^ 64 - 1 then .error .ErrRange
      else parseUintLoop n1 cs

/-- Go `strconv.ParseUint(s, 10, 64)`. -/
def ParseUint (s : List Char) : Except ErrKind Nat :=
  if s = [] then .error .ErrSyntax else parseUintLoop 0 s

/-- Go `strconv.ParseInt(s, 10, 0)` with a 64-bit `int`: an optional sign, then
`ParseUint`; a magnitude outside the `int64` range is a range error. -/
def ParseInt (s : List Char) : Except ErrKind Int :=
  if s = [] then .error .ErrSyntax
  else
    let neg := s.head? = some '-'
    let s1 := if s.head? = some '+' ∨ s.head? = some '-' then s.tail else s
    match ParseUint s1 with
    | .error .ErrSyntax => .error .ErrSyntax
    | .error .ErrRange => .error .ErrRange
    | .ok un =>
      if !neg && decide (un ≥ 2 ^ 63) then .error .ErrRange
      else if neg && decide (un > 2 ^ 63) then .error .ErrRange
      else .ok (if neg then -(un : Int) else (un : Int))

/-- Go `strconv.Atoi` with a 64-bit `int`: `ParseInt(s, 10, 0)` with the error
renamed to `Atoi` (the fast path for short inputs computes the same result). -/
def Atoi (s : List Char) : Except NumError Int :=
  match ParseInt s with
  | .error k => .error ⟨"Atoi", String.mk s, k⟩
  | .ok n => .ok n

/-- Go `(*NumError).Error`, with `strconv.Quote` taken as a parameter. -/
def NumError.Error (quote : String → String) (e : NumError) : String :=
  "strconv." ++ e.Func ++ ": parsing " ++ quote e.Num ++ ": " ++
    (match e.Err with
     | .ErrSyntax => "invalid syntax"
     | .ErrRange => "value out of range")

end strconv

namespace fmt

/-- Go verb `%d` for an `int`: decimal digits with a leading `-` when negative. -/
def formatInt (n : Int) : String :=
  if n < 0 then "-" ++ Nat.repr n.natAbs else Nat.repr n.natAbs

/-- Nearest integer to a non-negative rational, ties to the even neighbour. -/
def roundHalfEven (q : ℚ) : Nat :=
  let fl := ⌊q⌋.toNat
  let r := q - (fl : ℚ)
  if r < 1 / 2 then fl
  else if r > 1 / 2 then fl + 1
  else if fl % 2 = 0 then fl else fl + 1

/-- Go verb `%.2f` on the exact value `x` of a finite number: `x` rounded to two
decimals (ties to even), printed as integer part, a period and two digits, after a
`-` when the value is negative.  The text a program prints is this function on the
value of the `float64` it computed (`float64.F64.format`). -/
def formatF2 (x : ℚ) : String :=
  let n := roundHalfEven (|x| * 100)
  (if x < 0 then "-" else "") ++ Nat.repr (n / 100) ++ "." ++
    Nat.repr (n % 100 / 10) ++ Nat.repr (n % 10)

end fmt

namespace float64

/-- Power of two with an integer exponent. -/
def pow2 (e : Int) : ℚ :=
  if e ≥ 0 then ((2 ^ e.toNat : Nat) : ℚ) else 1 / ((2 ^ (-e).toNat : Nat) : ℚ)

/-- Number of halvings that bring `n` below 2, at most `fuel` of them. -/
def log2Fuel : Nat → Nat → Nat
  | 0, _ => 0
  | fuel + 1, n => if n < 2 then 0 else log2Fuel fuel (n / 2) + 1

/-- Binary logarithm of a natural number, rounded down (`0` for `0`); the fuel `n`
is never used up. -/
def log2 (n : Nat) : Nat := log2Fuel n n

/-- Binary exponent of a positive rational: the `e` with `2^e ≤ q < 2^(e+1)`. -/
def ilog2 (q : ℚ) : Int :=
  let e0 : Int := (log2 q.num.natAbs : Int) - (log2 q.den : Int)
  if pow2 e0 ≤ q then e0 else e0 - 1

/-- A `float64` value: a finite number (given by its exact value), an infinity or
NaN.  The sign of a zero is not represented. -/
inductive F64 where
  | fin (q : ℚ)
  | posInf
  | negInf
  | nan
  deriving DecidableEq, Repr

/-- Rounding of a positive rational to binary64, to nearest and ties to even: 53
bits of precision, exponents from -1022 (below them the subnormal spacing `2^-1074`)
and `+Inf` from `2^1024` on. -/
def roundPos (q : ℚ) : F64 :=
  let e := max (ilog2 q) (-1022)
  let ulp := pow2 (e - 52)
  let m := fmt.roundHalfEven (q / ulp)
  if (m : ℚ) * ulp ≥ pow2 1024 then .posInf else .fin ((m : ℚ) * ulp)

/-- Negation of a `float64`. -/
def F64.neg : F64 → F64
  | .fin q => .fin (-q)
  | .posInf => .negInf
  | .negInf => .posInf
  | .nan => .nan

/-- The `float64` nearest to a rational: the result of every operation and of the
conversion of a constant or an integer. -/
def ofRat (q : ℚ) : F64 :=
  if q = 0 then .fin 0 else if 0 < q then roundPos q else (roundPos (-q)).neg

/-- Go conversion `float64(n)` of an integer. -/
def ofInt (n : Int) : F64 := ofRat (n : ℚ)

/-- Sign of a `float64` that is not NaN: `1`, `0` or `-1`. -/
def F64.sign : F64 → Int
  | .fin q => if 0 < q then 1 else if q < 0 then -1 else 0
  | .posInf => 1
  | .negInf => -1
  | .nan => 0

/-- The infinity of a sign, NaN for the sign `0`. -/
def infOfSign (s : Int) : F64 :=
  if 0 < s then .posInf else if s < 0 then .negInf else .nan

/-- Product of two `float64`. -/
def F64.mul : F64 → F64 → F64
  | .nan, _ => .nan
  | _, .nan => .nan
  | .fin a, .fin b => ofRat (a * b)
  | x, y => infOfSign (x.sign * y.sign)

/-- Quotient of two `float64`; a zero divisor is taken as `+0` (the program never
divides by zero). -/
def F64.div : F64 → F64 → F64
  | .nan, _ => .nan
  | _, .nan => .nan
  | .fin a, .fin b => if b = 0 then infOfSign (F64.sign (.fin a)) else ofRat (a / b)
  | .fin _, _ => .fin 0
  | x, .fin b => infOfSign (x.sign * (if b < 0 then -1 else 1))
  | _, _ => .nan

/-- Sum of two `float64`. -/
def F64.add : F64 → F64 → F64
  | .nan, _ => .nan
  | _, .nan => .nan
  | .fin a, .fin b => ofRat (a + b)
  | .posInf, .negInf => .nan
  | .negInf, .posInf => .nan
  | .posInf, _ => .posInf
  | _, .posInf => .posInf
  | _, _ => .negInf

instance : Mul F64 := ⟨F64.mul⟩

instance : Div F64 := ⟨F64.div⟩

instance : Add F64 := ⟨F64.add⟩

/-- Go comparison `x <= 0`; false for NaN. -/
def F64.le0 : F64 → Bool
  | .fin q => decide (q ≤ 0)
  | .negInf => true
  | _ => false

/-- Go conversion `uint64(x)` of a finite non-negative `float64` below `2^64`: the
integer part. -/
def F64.toUint64 : F64 → Nat
  | .fin q => ⌊q⌋.toNat
  | _ => 0

/-- Go verb `%.2f` for a `float64`: two decimals of the exact value of a finite
number, `+Inf`, `-Inf` or `NaN` otherwise. -/
def F64.format : F64 → String
  | .fin q => fmt.formatF2 q
  | .posInf => "+Inf"
  | .negInf => "-Inf"
  | .nan => "NaN"

end float64

namespace time

/-- Nanoseconds in a minute (`time.Minute`). -/
def Minute : Int := 60000000000

/-- Nanoseconds in an hour (`time.Hour`). -/
def Hour : Int := 3600000000000

/-- Go `Duration.Hours`: whole hours plus the remainder as a fraction. -/
def Hours (d : Int) : ℚ :=
  ((d.tdiv Hour : Int) : ℚ) + ((d.tmod Hour : Int) : ℚ) / (60 * 60 * 1000000000)

/-- Go `Duration.Minutes`: whole minutes plus the remainder as a fraction. -/
def Minutes (d : Int) : ℚ :=
  ((d.tdiv Minute : Int) : ℚ) + ((d.tmod Minute : Int) : ℚ) / (60 * 1000000000)

/-- The errors of `time.ParseDuration`; each carries the original input. -/
inductive DurationError where
  | invalid (orig : String)
  | missingUnit (orig : String)
  | unknownUnit (u : String) (orig : String)
  deriving DecidableEq, Repr

/-- Text of a `time.ParseDuration` error, with the package's `quote` as a parameter. -/
def DurationError.Error (quote : String → String) : DurationError → String
  | .invalid orig => "time: invalid duration " ++ quote orig
  | .missingUnit orig => "time: missing unit in duration " ++ quote orig
  | .unknownUnit u orig => "time: unknown unit " ++ quote u ++ " in duration " ++ quote orig

/-- Go `time.unitMap`: nanoseconds per unit; `µ` is U+00B5 and `μ` is U+03BC. -/
def unitMap (u : List Char) : Option Nat :=
  if u = ['n', 's'] then some 1
  else if u = ['u', 's'] then some 1000
  else if u = [Char.ofNat 0xB5, 's'] then some 1000
  else if u = [Char.ofNat 0x3BC, 's'] then some 1000
  else if u = ['m', 's'] then some 1000000
  else if u = ['s'] then some 1000000000
  else if u = ['m'] then some 60000000000
  else if u = ['h'] then some 3600000000000
  else none

/-- Go `time.leadingInt`: the leading digits as a number and the rest of the
string; `none` when the number exceeds `1 << 63`. -/
def leadingInt : Nat → List Char → Option (Nat × List Char)
  | x, [] => some (x, [])
  | x, c :: cs =>
    if !strconv.isDigit c then some (x, c :: cs)
    else if x > 2 ^ 63 / 10 then none
    else
      let x1 := x * 10 + strconv.digitVal c
      if x1 > 2 ^ 63 then none else leadingInt x1 cs

/-- Go `time.leadingFraction`: the leading digits as a number `x` with its power
of ten `scale` and the rest of the string; digits past an overflow are skipped. -/
def leadingFraction : Nat → Nat → Bool → List Char → Nat × Nat × List Char
  | x, scale, _, [] => (x, scale, [])
  | x, scale, overflow, c :: cs =>
    if !strconv.isDigit c then (x, scale, c :: cs)
    else if overflow then leadingFraction x scale true cs
    else if x > (2 ^ 63 - 1) / 10 then leadingFraction x scale true cs
    else
      let y := x * 10 + strconv.digitVal c
      if y > 2 ^ 63 then leadingFraction x scale true cs
      else leadingFraction y (scale * 10) false cs

/-- Is the character one that ends a unit: a period or a digit. -/
def endsUnit (c : Char) : Bool := c == '.' || strconv.isDigit c

/-- The kinds of failure inside the loop of `time.ParseDuration`. -/
inductive LoopError where
  | invalid
  | missingUnit
  | unknownUnit (u : List Char)
  deriving DecidableEq, Repr

/-- The optional `(\.[0-9]*)?` of a group: the fraction digits as a number, its
power of ten, the rest of the string and whether a digit was consumed. -/
def fractionPart (s : List Char) : Nat × Nat × List Char × Bool :=
  match s with
  | c :: r =>
    if c == '.' then
      let lf := leadingFraction 0 1 false r
      (lf.1, lf.2.1, lf.2.2, decide (r.length ≠ lf.2.2.length))
    else (0, 1, s, false)
  | [] => (0, 1, s, false)

/-- One round of the loop of `time.ParseDuration` on the non-empty rest `c :: cs`:
a group `[0-9]*(\.[0-9]*)?[a-z]+` is consumed; the result is its value in
nanoseconds and the rest of the string.  The fractional digits contribute
`uint64(float64(f) * (float64(unit) / scale))`, computed in `float64`. -/
def parseGroup (c : Char) (cs : List Char) : Except LoopError (Nat × List Char) :=
  if !(c == '.' || strconv.isDigit c) then .error .invalid
  else
    match leadingInt 0 (c :: cs) with
    | none => .error .invalid
    | some (v, s1) =>
      let pre := decide ((c :: cs).length ≠ s1.length)
      let fr := fractionPart s1
      let f := fr.1
      let scale := fr.2.1
      let s2 := fr.2.2.1
      let post := fr.2.2.2
      if !pre && !post then .error .invalid
      else
        let u := s2.takeWhile (fun x => !endsUnit x)
        let s3 := s2.dropWhile (fun x => !endsUnit x)
        if u = [] then .error .missingUnit
        else
          match unitMap u with
          | none => .error (.unknownUnit u)
          | some unit =>
            if v > 2 ^ 63 / unit then .error .invalid
            else
              let v1 := v * unit
              let v2 :=
                if f > 0 then
                  v1 + (float64.ofInt f * (float64.ofInt unit / float64.ofInt scale)).toUint64
                else v1
              if f > 0 ∧ v2 > 2 ^ 63 then .error .invalid
              else .ok (v2, s3)

/-- The main loop of `time.ParseDuration`: the groups are summed in the `uint64`
`d`, which must stay at most `1 << 63`.  `fuel` bounds the number of rounds; every
round consumes at least one character, so the length of the input is enough. -/
def parseLoop : Nat → Nat → List Char → Except LoopError Nat
  | _, d, [] => .ok d
  | 0, _, _ :: _ => .error .invalid
  | fuel + 1, d, c :: cs =>
    match parseGroup c cs with
    | .error e => .error e
    | .ok (v, s3) =>
      let d1 := (d + v) % 2 ^ 64
      if d1 > 2 ^ 63 then .error .invalid
      else parseLoop fuel d1 s3

/-- Conversion of an integer to `int64`, wrapping modulo `2^64`. -/
def toInt64 (x : Int) : Int :=
  if x % 2 ^ 64 ≥ 2 ^ 63 then x % 2 ^ 64 - 2 ^ 64 else x % 2 ^ 64

/-- Go `time.ParseDuration`: an optional sign, the special case `"0"`, then the
loop; the sum is negated (in `int64`) for a leading `-` and must not exceed
`1<<63 - 1` otherwise. -/
def ParseDuration (s : List Char) : Except DurationError Int :=
  let orig := String.mk s
  let neg := s.head? = some '-'
  let s1 := if s.head? = some '+' ∨ s.head? = some '-' then s.tail else s
  if s1 = ['0'] then .ok 0
  else if s1 = [] then .error (.invalid orig)
  else
    match parseLoop s1.length 0 s1 with
    | .error .invalid => .error (.invalid orig)
    | .error .missingUnit => .error (.missingUnit orig)
    | .error (.unknownUnit u) => .error (.unknownUnit (String.mk u) orig)
    | .ok d =>
      if neg then .ok (toInt64 (-(toInt64 (d : Int))))
      else if d > 2 ^ 63 - 1 then .error (.invalid orig)
      else .ok (d : Int)

end time

/-! ## The repository's code -/

/-- The errors built with `fmt.Errorf` in the two packages, one constructor per
message; equal messages are the same error. -/
inductive TrackerError where
  | format (expected : Nat) (got : Nat)
  | stepsEmpty
  | stepsWhitespace
  | stepsParse (e : strconv.NumError)
  | stepsNonPositive
  | activityEmpty
  | durationEmpty
  | durationWhitespace
  | durationParse (e : time.DurationError)
  | durationNonPositive
  | weightNonPositive
  | heightNonPositive
  | unknownActivity
  deriving DecidableEq, Repr

/-- The message of each error, as written in the `fmt.Errorf` calls; the quoting
functions of `strconv` and `time` are parameters. -/
def TrackerError.Error (strconvQuote timeQuote : String → String) : TrackerError → String
  | .format expected got =>
    "неверный формат данных: ожидается " ++ Nat.repr expected ++ " части, получено " ++
      Nat.repr got
  | .stepsEmpty => "количество шагов не может быть пустым"
  | .stepsWhitespace => "количество шагов содержит пробелы"
  | .stepsParse e => "ошибка преобразования шагов: " ++ e.Error strconvQuote
  | .stepsNonPositive => "количество шагов должно быть положительным"
  | .activityEmpty => "тип активности не может быть пустым"
  | .durationEmpty => "продолжительность не может быть пустой"
  | .durationWhitespace => "продолжительность содержит пробелы"
  | .durationParse e => "ошибка преобразования продолжительности: " ++ e.Error timeQuote
  | .durationNonPositive => "продолжительность должна быть положительной"
  | .weightNonPositive => "вес должен быть положительным"
  | .heightNonPositive => "рост должен быть положительным"
  | .unknownActivity => "неизвестный тип тренировки"

namespace spentcalories

/-- Metres in a kilometre. -/
def mInKm : ℚ := 1000

/-- Minutes in an hour. -/
def minInH : ℚ := 60

/-- Coefficient giving the step length from the height. -/
def stepLengthCoefficient : ℚ := 45 / 100

/-- Coefficient of the calories spent walking. -/
def walkingCaloriesCoefficient : ℚ := 1 / 2

/-- Go `parseTraining`: steps, activity label and duration of a record
`"steps,label,duration"`, or the first error met. -/
def parseTraining (data : String) : Int × String × Int × Option TrackerError :=
  let parts := strings.Split data.toList ','
  if parts.length ≠ 3 then (0, "", 0, some (.format 3 parts.length))
  else
    let stepsStr := strings.TrimSpace (parts.getD 0 [])
    let activityType := strings.TrimSpace (parts.getD 1 [])
    let durationStr := strings.TrimSpace (parts.getD 2 [])
    if stepsStr = [] then (0, "", 0, some .stepsEmpty)
    else
      let stepsStr := strings.TrimSpace stepsStr
      if strings.ContainsAny stepsStr [' ', '\t', '\n'] then (0, "", 0, some .stepsWhitespace)
      else
        match strconv.Atoi stepsStr with
        | .error err => (0, "", 0, some (.stepsParse err))
        | .ok steps =>
          if steps ≤ 0 then (0, "", 0, some .stepsNonPositive)
          else if activityType = [] then (0, "", 0, some .activityEmpty)
          else if durationStr = [] then (0, "", 0, some .durationEmpty)
          else
            let durationStr := strings.TrimSpace durationStr
            if strings.ContainsAny durationStr [' ', '\t', '\n'] then
              (0, "", 0, some .durationWhitespace)
            else
              match time.ParseDuration durationStr with
              | .error err => (0, "", 0, some (.durationParse err))
              | .ok duration =>
                if duration ≤ 0 then (0, "", 0, some .durationNonPositive)
                else (steps, String.mk activityType, duration, none)

/-- Go `distance`: kilometres walked, with a step of `height * 0.45` metres. -/
def distance (steps : Int) (height : ℚ) : ℚ :=
  let stepLength := height * stepLengthCoefficient
  let distanceMeters := (steps : ℚ) * stepLength
  distanceMeters / mInKm

/-- Go `meanSpeed`: kilometres per hour, `0` for a non-positive duration. -/
def meanSpeed (steps : Int) (height : ℚ) (duration : Int) : ℚ :=
  if duration ≤ 0 then 0
  else
    let dist := distance steps height
    let durationHours := time.Hours duration
    if durationHours = 0 then 0
    else dist / durationHours

/-- Go `RunningSpentCalories`. -/
def RunningSpentCalories (steps : Int) (weight height : ℚ) (duration : Int) :
    ℚ × Option TrackerError :=
  if steps ≤ 0 then (0, some .stepsNonPositive)
  else if weight ≤ 0 then (0, some .weightNonPositive)
  else if height ≤ 0 then (0, some .heightNonPositive)
  else if duration ≤ 0 then (0, some .durationNonPositive)
  else
    let speed := meanSpeed steps height duration
    let durationMinutes := time.Minutes duration
    let calories := (weight * speed * durationMinutes) / minInH
    (calories, none)

/-- Go `WalkingSpentCalories`. -/
def WalkingSpentCalories (steps : Int) (weight height : ℚ) (duration : Int) :
    ℚ × Option TrackerError :=
  if steps ≤ 0 then (0, some .stepsNonPositive)
  else if weight ≤ 0 then (0, some .weightNonPositive)
  else if height ≤ 0 then (0, some .heightNonPositive)
  else if duration ≤ 0 then (0, some .durationNonPositive)
  else
    let speed := meanSpeed steps height duration
    let durationMinutes := time.Minutes duration
    let calories := (weight * speed * durationMinutes) / minInH
    let calories := calories * walkingCaloriesCoefficient
    (calories, none)

/-- The five-line report built by `TrainingInfo` with `fmt.Sprintf`, on the exact
values; the text printed for the `float64` computed is `spentcalories.f64.report`. -/
def report (activityType : String) (durationHours dist speed calories : ℚ) : String :=
  "Тип тренировки: " ++ activityType ++ "\nДлительность: " ++ fmt.formatF2 durationHours ++
    " ч.\nДистанция: " ++ fmt.formatF2 dist ++ " км.\nСкорость: " ++ fmt.formatF2 speed ++
    " км/ч\nСожгли калорий: " ++ fmt.formatF2 calories ++ "\n"

/-- Go `TrainingInfo`. -/
def TrainingInfo (data : String) (weight height : ℚ) : String × Option TrackerError :=
  match parseTraining data with
  | (_, _, _, some err) => ("", some err)
  | (steps, activityType, duration, none) =>
    let r : Option (ℚ × Option TrackerError) :=
      if activityType = "Ходьба" then some (WalkingSpentCalories steps weight height duration)
      else if activityType = "Бег" then some (RunningSpentCalories steps weight height duration)
      else none
    match r with
    | none => ("", some .unknownActivity)
    | some (_, some caloriesErr) => ("", some caloriesErr)
    | some (calories, none) =>
      let dist := distance steps height
      let speed := meanSpeed steps height duration
      let durationHours := time.Hours duration
      (report activityType durationHours dist speed calories, none)

end spentcalories

namespace daysteps

/-- Length of one step in metres. -/
def stepLength : ℚ := 65 / 100

/-- Metres in a kilometre. -/
def mInKm : ℚ := 1000

/-- Go `parsePackage`: steps and duration of a record `"steps,duration"`, or the
first error met. -/
def parsePackage (data : String) : Int × Int × Option TrackerError :=
  let parts := strings.Split data.toList ','
  if parts.length ≠ 2 then (0, 0, some (.format 2 parts.length))
  else
    let stepsStr := strings.TrimSpace (parts.getD 0 [])
    let durationStr := strings.TrimSpace (parts.getD 1 [])
    if stepsStr = [] then (0, 0, some .stepsEmpty)
    else
      match strconv.Atoi stepsStr with
      | .error err => (0, 0, some (.stepsParse err))
      | .ok steps =>
        if steps ≤ 0 then (0, 0, some .stepsNonPositive)
        else if durationStr = [] then (0, 0, some .durationEmpty)
        else
          match time.ParseDuration durationStr with
          | .error err => (0, 0, some (.durationParse err))
          | .ok duration =>
            if duration ≤ 0 then (0, 0, some .durationNonPositive)
            else (steps, duration, none)

/-- The three-line report built by `DayActionInfo` with `fmt.Sprintf`, on the exact
values; the text printed for the `float64` computed is `daysteps.f64.report`. -/
def report (steps : Int) (distanceKm calories : ℚ) : String :=
  "Количество шагов: " ++ fmt.formatInt steps ++ ".\nДистанция составила " ++
    fmt.formatF2 distanceKm ++ " км.\nВы сожгли " ++ fmt.formatF2 calories ++ " ккал.\n"

/-- Go `DayActionInfo`. -/
def DayActionInfo (data : String) (weight height : ℚ) : String :=
  match parsePackage data with
  | (_, _, some _) => ""
  | (steps, duration, none) =>
    if steps ≤ 0 then ""
    else
      let distanceMeters := (steps : ℚ) * stepLength
      let distanceKm := distanceMeters / mInKm
      match spentcalories.WalkingSpentCalories steps weight height duration with
      | (_, some _) => ""
      | (calories, none) => report steps distanceKm calories

end daysteps

/-! ## The calculations and reports in `float64`

The definitions above compute with exact rationals.  The ones below are the same
functions with every `float64` operation rounded as the machine does; the text that
the program prints is stated on these. -/

namespace time.f64

open float64 in
/-- Go `Duration.Hours` in `float64`. -/
def Hours (d : Int) : F64 :=
  ofInt (d.tdiv Hour) + ofInt (d.tmod Hour) / ofRat (60 * 60 * 1000000000)

open float64 in
/-- Go `Duration.Minutes` in `float64`. -/
def Minutes (d : Int) : F64 :=
  ofInt (d.tdiv Minute) + ofInt (d.tmod Minute) / ofRat (60 * 1000000000)

end time.f64

namespace spentcalories.f64

open float64 in
/-- Go `distance` in `float64`. -/
def distance (steps : Int) (height : F64) : F64 :=
  let stepLength := height * ofRat stepLengthCoefficient
  let distanceMeters := ofInt steps * stepLength
  distanceMeters / ofRat mInKm

open float64 in
/-- Go `meanSpeed` in `float64`. -/
def meanSpeed (steps : Int) (height : F64) (duration : Int) : F64 :=
  if duration ≤ 0 then .fin 0
  else
    let dist := distance steps height
    let durationHours := time.f64.Hours duration
    if durationHours = .fin 0 then .fin 0
    else dist / durationHours

open float64 in
/-- Go `RunningSpentCalories` in `float64`. -/
def RunningSpentCalories (steps : Int) (weight height : F64) (duration : Int) :
    F64 × Option TrackerError :=
  if steps ≤ 0 then (.fin 0, some .stepsNonPositive)
  else if weight.le0 then (.fin 0, some .weightNonPositive)
  else if height.le0 then (.fin 0, some .heightNonPositive)
  else if duration ≤ 0 then (.fin 0, some .durationNonPositive)
  else
    let speed := meanSpeed steps height duration
    let durationMinutes := time.f64.Minutes duration
    let calories := (weight * speed * durationMinutes) / ofRat minInH
    (calories, none)

open float64 in
/-- Go `WalkingSpentCalories` in `float64`. -/
def WalkingSpentCalories (steps : Int) (weight height : F64) (duration : Int) :
    F64 × Option TrackerError :=
  if steps ≤ 0 then (.fin 0, some .stepsNonPositive)
  else if weight.le0 then (.fin 0, some .weightNonPositive)
  else if height.le0 then (.fin 0, some .heightNonPositive)
  else if duration ≤ 0 then (.fin 0, some .durationNonPositive)
  else
    let speed := meanSpeed steps height duration
    let durationMinutes := time.f64.Minutes duration
    let calories := (weight * speed * durationMinutes) / ofRat minInH
    let calories := calories * ofRat walkingCaloriesCoefficient
    (calories, none)

open float64 in
/-- The five-line report printed by `TrainingInfo`, the numbers being `float64`. -/
def report (activityType : String) (durationHours dist speed calories : F64) : String :=
  "Тип тренировки: " ++ activityType ++ "\nДлительность: " ++ durationHours.format ++
    " ч.\nДистанция: " ++ dist.format ++ " км.\nСкорость: " ++ speed.format ++
    " км/ч\nСожгли калорий: " ++ calories.format ++ "\n"

open float64 in
/-- Go `TrainingInfo` in `float64`. -/
def TrainingInfo (data : String) (weight height : F64) : String × Option TrackerError :=
  match parseTraining data with
  | (_, _, _, some err) => ("", some err)
  | (steps, activityType, duration, none) =>
    let r : Option (F64 × Option TrackerError) :=
      if activityType = "Ходьба" then some (WalkingSpentCalories steps weight height duration)
      else if activityType = "Бег" then some (RunningSpentCalories steps weight height duration)
      else none
    match r with
    | none => ("", some .unknownActivity)
    | some (_, some caloriesErr) => ("", some caloriesErr)
    | some (calories, none) =>
      let dist := distance steps height
      let speed := meanSpeed steps height duration
      let durationHours := time.f64.Hours duration
      (report activityType durationHours dist speed calories, none)

end spentcalories.f64

namespace daysteps.f64

open float64 in
/-- The three-line report printed by `DayActionInfo`, the numbers being `float64`. -/
def report (steps : Int) (distanceKm calories : F64) : String :=
  "Количество шагов: " ++ fmt.formatInt steps ++ ".\nДистанция составила " ++
    distanceKm.format ++ " км.\nВы сожгли " ++ calories.format ++ " ккал.\n"

open float64 in
/-- Go `DayActionInfo` in `float64`. -/
def DayActionInfo (data : String) (weight height : F64) : String :=
  match parsePackage data with
  | (_, _, some _) => ""
  | (steps, duration, none) =>
    if steps ≤ 0 then ""
    else
      let distanceMeters := ofInt steps * ofRat stepLength
      let distanceKm := distanceMeters / ofRat mInKm
      match spentcalories.f64.WalkingSpentCalories steps weight height duration with
      | (_, some _) => ""
      | (calories, none) => report steps distanceKm calories

end daysteps.f64

/-! ## Calorie functions -/

open spentcalories in
/-- C1: for positive steps, weight, height and duration both calorie functions
succeed and the walking calories are exactly half of the running calories. -/
theorem walking_is_half_of_running (steps : Int) (weight height : ℚ) (duration : Int)
    (hs : 0 < steps) (hw : 0 < weight) (hh : 0 < height) (hd : 0 < duration) :
    (RunningSpentCalories steps weight height duration).2 = none ∧
    (WalkingSpentCalories steps weight height duration).2 = none ∧
    (WalkingSpentCalories steps weight height duration).1 =
      (1 / 2) * (RunningSpentCalories steps weight height duration).1 := by
  simp only [RunningSpentCalories, WalkingSpentCalories, not_le.mpr hs, not_le.mpr hw,
    not_le.mpr hh, not_le.mpr hd, if_false, walkingCaloriesCoefficient]
  refine ⟨trivial, trivial, ?_⟩
  ring

open spentcalories in
/-- Witness of C1 at 3456 steps, 75 kg, 1.75 m and 45 minutes. -/
theorem walking_is_half_of_running_witness :
    (0 : Int) < 3456 ∧ (0 : ℚ) < 75 ∧ (0 : ℚ) < 7 / 4 ∧ (0 : Int) < 2700000000000 ∧
    (WalkingSpentCalories 3456 75 (7 / 4) 2700000000000).1 =
      (1 / 2) * (RunningSpentCalories 3456 75 (7 / 4) 2700000000000).1 :=
  ⟨by decide, by norm_num, by norm_num, by decide,
   (walking_is_half_of_running 3456 75 (7 / 4) 2700000000000 (by decide) (by norm_num)
      (by norm_num) (by decide)).2.2⟩


open spentcalories in
/-- C6: for positive arguments `RunningSpentCalories` returns
`weight * meanSpeed * durationMinutes / 60` and no error; the record
`"3456,Бег,45m0s"` at 75 kg and 1.75 m has mean speed `distance 3456 1.75 / 0.75` and
is reported with the calories `75 * meanSpeed * 45 / 60`. -/
theorem running_calories_formula (steps : Int) (weight height : ℚ) (duration : Int)
    (hs : 0 < steps) (hw : 0 < weight) (hh : 0 < height) (hd : 0 < duration) :
    RunningSpentCalories steps weight height duration =
      (weight * meanSpeed steps height duration * time.Minutes duration / 60, none) ∧
    parseTraining "3456,Бег,45m0s" = (3456, "Бег", 2700000000000, none) ∧
    time.Minutes 2700000000000 = 45 ∧
    meanSpeed 3456 (7 / 4) 2700000000000 = distance 3456 (7 / 4) / (3 / 4) ∧
    TrainingInfo "3456,Бег,45m0s" 75 (7 / 4) =
      (report "Бег" (3 / 4) (distance 3456 (7 / 4)) (distance 3456 (7 / 4) / (3 / 4))
        (75 * (distance 3456 (7 / 4) / (3 / 4)) * 45 / 60), none) := by
  refine ⟨?_, by decide, by decide!, by decide!, by decide!⟩
  simp only [RunningSpentCalories, not_le.mpr hs, not_le.mpr hw, not_le.mpr hh,
    not_le.mpr hd, if_false, minInH]

open spentcalories in
/-- Witness of C6 at the record of the specification. -/
theorem running_calories_formula_witness :
    RunningSpentCalories 3456 75 (7 / 4) 2700000000000 =
      (75 * meanSpeed 3456 (7 / 4) 2700000000000 * time.Minutes 2700000000000 / 60, none) :=
  (running_calories_formula 3456 75 (7 / 4) 2700000000000 (by decide) (by norm_num)
    (by norm_num) (by decide)).1

open spentcalories in
/-- C7: each calorie function fails exactly when one of steps, weight, height,
duration is not positive; the error is the one of the first such argument in that
order and the value returned with it is 0. -/
theorem calories_error_iff (f : Int → ℚ → ℚ → Int → ℚ × Option TrackerError)
    (hf : f = RunningSpentCalories ∨ f = WalkingSpentCalories)
    (steps : Int) (weight height : ℚ) (duration : Int) :
    ((f steps weight height duration).2 ≠ none ↔
      (steps ≤ 0 ∨ weight ≤ 0 ∨ height ≤ 0 ∨ duration ≤ 0)) ∧
    (steps ≤ 0 → (f steps weight height duration).2 = some .stepsNonPositive) ∧
    (0 < steps → weight ≤ 0 →
      (f steps weight height duration).2 = some .weightNonPositive) ∧
    (0 < steps → 0 < weight → height ≤ 0 →
      (f steps weight height duration).2 = some .heightNonPositive) ∧
    (0 < steps → 0 < weight → 0 < height → duration ≤ 0 →
      (f steps weight height duration).2 = some .durationNonPositive) ∧
    ((f steps weight height duration).2 ≠ none → (f steps weight height duration).1 = 0) := by
  rcases hf with rfl | rfl
  · by_cases hs : steps ≤ 0
    · simp [RunningSpentCalories, hs, not_lt.mpr hs]
    · by_cases hw : weight ≤ 0
      · simp [RunningSpentCalories, hs, hw, not_lt.mpr hw]
      · by_cases hh : height ≤ 0
        · simp [RunningSpentCalories, hs, hw, hh, not_lt.mpr hh]
        · by_cases hd : duration ≤ 0
          · simp [RunningSpentCalories, hs, hw, hh, hd]
          · simp [RunningSpentCalories, hs, hw, hh, hd]
  · by_cases hs : steps ≤ 0
    · simp [WalkingSpentCalories, hs, not_lt.mpr hs]
    · by_cases hw : weight ≤ 0
      · simp [WalkingSpentCalories, hs, hw, not_lt.mpr hw]
      · by_cases hh : height ≤ 0
        · simp [WalkingSpentCalories, hs, hw, hh, not_lt.mpr hh]
        · by_cases hd : duration ≤ 0
          · simp [WalkingSpentCalories, hs, hw, hh, hd]
          · simp [WalkingSpentCalories, hs, hw, hh, hd]

open spentcalories in
/-- Witness of C7: a non-positive weight with positive steps in the walking function. -/
theorem calories_error_iff_witness :
    (WalkingSpentCalories 10 0 (7 / 4) 5).2 = some .weightNonPositive :=
  (calories_error_iff WalkingSpentCalories (Or.inr rfl) 10 0 (7 / 4) 5).2.2.1
    (by decide) (by norm_num)

/-! ## Text helpers -/

theorem strings.TrimSpace_idem (s : List Char) :
    strings.TrimSpace (strings.TrimSpace s) = strings.TrimSpace s := by
  unfold strings.TrimSpace
  have hpre : (s.dropWhile unicode.IsSpace).rdropWhile unicode.IsSpace <+:
      s.dropWhile unicode.IsSpace := List.rdropWhile_prefix _ _
  have hd : List.dropWhile unicode.IsSpace
      ((s.dropWhile unicode.IsSpace).rdropWhile unicode.IsSpace) =
      (s.dropWhile unicode.IsSpace).rdropWhile unicode.IsSpace := by
    generalize hr : (s.dropWhile unicode.IsSpace).rdropWhile unicode.IsSpace = r at hpre
    cases r with
    | nil => rfl
    | cons a r =>
      obtain ⟨t, ht⟩ := hpre
      have hne : List.dropWhile unicode.IsSpace s ≠ [] := by
        rw [← ht]; simp
      have := List.head_dropWhile_not unicode.IsSpace s hne
      have ha : (List.dropWhile unicode.IsSpace s).head hne = a := by
        simp [← ht]
      rw [ha] at this
      simp [List.dropWhile, this]
  rw [hd, List.rdropWhile_idempotent]

theorem strconv.parseUintLoop_digits (s : List Char) :
    ∀ (n m : Nat), strconv.parseUintLoop n s = .ok m → ∀ c ∈ s, strconv.isDigit c = true := by
  induction s with
  | nil => intro n m _ c hc; simp at hc
  | cons a s ih =>
    intro n m h c hc
    unfold strconv.parseUintLoop at h
    by_cases ha : strconv.isDigit a = true
    · simp only [ha, Bool.not_true, Bool.false_eq_true, if_false] at h
      split_ifs at h
      rcases List.mem_cons.mp hc with rfl | hc
      · exact ha
      · exact ih _ _ h c hc
    · simp [ha] at h

theorem strconv.Atoi_ok_chars (s : List Char) (n : Int) (h : strconv.Atoi s = .ok n) :
    s ≠ [] ∧ ∀ c ∈ s, strconv.isDigit c = true ∨ c = '+' ∨ c = '-' := by
  unfold strconv.Atoi at h
  split at h
  · cases h
  · rename_i m hm
    unfold strconv.ParseInt at hm
    by_cases hs : s = []
    · simp [hs] at hm
    · refine ⟨hs, ?_⟩
      simp only [hs, if_false] at hm
      split at hm
      · cases hm
      · cases hm
      · rename_i un hun
        unfold strconv.ParseUint at hun
        split_ifs at hun with h1 h2
        · have hd := strconv.parseUintLoop_digits _ _ _ hun
          intro c hc
          cases s with
          | nil => simp at hc
          | cons a t =>
            rcases List.mem_cons.mp hc with rfl | hc
            · simp only [List.head?_cons, Option.some.injEq] at h1
              rcases h1 with h1 | h1
              · exact Or.inr (Or.inl h1)
              · exact Or.inr (Or.inr h1)
            · exact Or.inl (hd c (by simpa using hc))
        · intro c hc
          exact Or.inl (strconv.parseUintLoop_digits _ _ _ hun c hc)

theorem strconv.Atoi_ok_no_blank (s : List Char) (n : Int) (h : strconv.Atoi s = .ok n) :
    strings.ContainsAny s [' ', '\t', '\n'] = false := by
  have hc := (strconv.Atoi_ok_chars s n h).2
  unfold strings.ContainsAny
  rw [Bool.eq_false_iff]
  intro hany
  rw [List.any_eq_true] at hany
  obtain ⟨c, hcs, hcw⟩ := hany
  have hw : c = ' ' ∨ c = '\t' ∨ c = '\n' := by simpa using hcw
  rcases hc c hcs with hd | hd | hd
  · rcases hw with rfl | rfl | rfl <;> simp [strconv.isDigit] at hd
  · rcases hw with rfl | rfl | rfl <;> simp at hd
  · rcases hw with rfl | rfl | rfl <;> simp at hd

/-! ## The record parsers -/

open spentcalories in
theorem spentcalories.parseTraining_accepts (data : String)
    (h : (parseTraining data).2.2.2 = none) :
    ∃ steps duration, 0 < steps ∧ 0 < duration ∧
      (strings.Split data.toList ',').length = 3 ∧
      strconv.Atoi (strings.TrimSpace (strings.TrimSpace
        ((strings.Split data.toList ',').getD 0 []))) = .ok steps ∧
      strings.TrimSpace ((strings.Split data.toList ',').getD 1 []) ≠ [] ∧
      time.ParseDuration (strings.TrimSpace (strings.TrimSpace
        ((strings.Split data.toList ',').getD 2 []))) = .ok duration ∧
      parseTraining data =
        (steps, String.mk (strings.TrimSpace ((strings.Split data.toList ',').getD 1 [])),
          duration, none) := by
  by_cases h1 : (strings.Split data.toList ',').length = 3
  swap
  · simp only [parseTraining, h1, if_true, if_false, Bool.false_eq_true, not_true_eq_false,
      not_false_eq_true, ne_eq, reduceCtorEq] at h
  by_cases h2 : strings.TrimSpace ((strings.Split data.toList ',').getD 0 []) = []
  · simp only [parseTraining, h1, h2, if_true, if_false, Bool.false_eq_true, not_true_eq_false,
      not_false_eq_true, ne_eq, reduceCtorEq] at h
  by_cases h3 : strings.ContainsAny (strings.TrimSpace (strings.TrimSpace
      ((strings.Split data.toList ',').getD 0 []))) [' ', '\t', '\n'] = true
  · simp only [parseTraining, h1, h2, h3, if_true, if_false, Bool.false_eq_true, not_true_eq_false,
      not_false_eq_true, ne_eq, reduceCtorEq] at h
  cases hA : strconv.Atoi (strings.TrimSpace (strings.TrimSpace
      ((strings.Split data.toList ',').getD 0 []))) with
  | error err => simp only [parseTraining, h1, h2, h3, hA, if_true, if_false, Bool.false_eq_true,
                   not_true_eq_false, not_false_eq_true, ne_eq, reduceCtorEq] at h
  | ok steps =>
    by_cases h4 : steps ≤ 0
    · simp only [parseTraining, h1, h2, h3, hA, h4, if_true, if_false, Bool.false_eq_true,
        not_true_eq_false, not_false_eq_true, ne_eq, reduceCtorEq] at h
    by_cases h5 : strings.TrimSpace ((strings.Split data.toList ',').getD 1 []) = []
    · simp only [parseTraining, h1, h2, h3, hA, h4, h5, if_true, if_false, Bool.false_eq_true,
        not_true_eq_false, not_false_eq_true, ne_eq, reduceCtorEq] at h
    by_cases h6 : strings.TrimSpace ((strings.Split data.toList ',').getD 2 []) = []
    · simp only [parseTraining, h1, h2, h3, hA, h4, h5, h6, if_true, if_false, Bool.false_eq_true,
        not_true_eq_false, not_false_eq_true, ne_eq, reduceCtorEq] at h
    by_cases h7 : strings.ContainsAny (strings.TrimSpace (strings.TrimSpace
        ((strings.Split data.toList ',').getD 2 []))) [' ', '\t', '\n'] = true
    · simp only [parseTraining, h1, h2, h3, hA, h4, h5, h6, h7, if_true, if_false,
        Bool.false_eq_true, not_true_eq_false, not_false_eq_true, ne_eq, reduceCtorEq] at h
    cases hD : time.ParseDuration (strings.TrimSpace (strings.TrimSpace
        ((strings.Split data.toList ',').getD 2 []))) with
    | error err => simp only [parseTraining, h1, h2, h3, hA, h4, h5, h6, h7, hD, if_true, if_false,
                     Bool.false_eq_true, not_true_eq_false, not_false_eq_true, ne_eq, reduceCtorEq] at h
    | ok duration =>
      by_cases h8 : duration ≤ 0
      · simp only [parseTraining, h1, h2, h3, hA, h4, h5, h6, h7, hD, h8, if_true, if_false,
          Bool.false_eq_true, not_true_eq_false, not_false_eq_true, ne_eq, reduceCtorEq] at h
      refine ⟨steps, duration, not_le.mp h4, not_le.mp h8, h1, rfl, h5, rfl, ?_⟩
      simp only [parseTraining, h1, h2, h3, hA, h4, h5, h6, h7, hD, h8, if_true, if_false,
        Bool.false_eq_true, not_true_eq_false, not_false_eq_true, ne_eq]

open spentcalories in
theorem spentcalories.parseTraining_error_zero (data : String) (e : TrackerError)
    (h : (parseTraining data).2.2.2 = some e) :
    parseTraining data = (0, "", 0, some e) := by
  by_cases h1 : (strings.Split data.toList ',').length = 3
  swap
  · simp only [parseTraining, h1, if_true, if_false, Bool.false_eq_true, not_true_eq_false,
      not_false_eq_true, ne_eq] at h ⊢; rw [h]
  by_cases h2 : strings.TrimSpace ((strings.Split data.toList ',').getD 0 []) = []
  · simp only [parseTraining, h1, h2, if_true, if_false, Bool.false_eq_true, not_true_eq_false,
      not_false_eq_true, ne_eq] at h ⊢; rw [h]
  by_cases h3 : strings.ContainsAny (strings.TrimSpace (strings.TrimSpace
      ((strings.Split data.toList ',').getD 0 []))) [' ', '\t', '\n'] = true
  · simp only [parseTraining, h1, h2, h3, if_true, if_false, Bool.false_eq_true, not_true_eq_false,
      not_false_eq_true, ne_eq] at h ⊢; rw [h]
  cases hA : strconv.Atoi (strings.TrimSpace (strings.TrimSpace
      ((strings.Split data.toList ',').getD 0 []))) with
  | error err => simp only [parseTraining, h1, h2, h3, hA, if_true, if_false, Bool.false_eq_true,
                   not_true_eq_false, not_false_eq_true, ne_eq] at h ⊢; rw [h]
  | ok steps =>
    by_cases h4 : steps ≤ 0
    · simp only [parseTraining, h1, h2, h3, hA, h4, if_true, if_false, Bool.false_eq_true,
        not_true_eq_false, not_false_eq_true, ne_eq] at h ⊢; rw [h]
    by_cases h5 : strings.TrimSpace ((strings.Split data.toList ',').getD 1 []) = []
    · simp only [parseTraining, h1, h2, h3, hA, h4, h5, if_true, if_false, Bool.false_eq_true,
        not_true_eq_false, not_false_eq_true, ne_eq] at h ⊢; rw [h]
    by_cases h6 : strings.TrimSpace ((strings.Split data.toList ',').getD 2 []) = []
    · simp only [parseTraining, h1, h2, h3, hA, h4, h5, h6, if_true, if_false, Bool.false_eq_true,
        not_true_eq_false, not_false_eq_true, ne_eq] at h ⊢; rw [h]
    by_cases h7 : strings.ContainsAny (strings.TrimSpace (strings.TrimSpace
        ((strings.Split data.toList ',').getD 2 []))) [' ', '\t', '\n'] = true
    · simp only [parseTraining, h1, h2, h3, hA, h4, h5, h6, h7, if_true, if_false,
        Bool.false_eq_true, not_true_eq_false, not_false_eq_true, ne_eq] at h ⊢; rw [h]
    cases hD : time.ParseDuration (strings.TrimSpace (strings.TrimSpace
        ((strings.Split data.toList ',').getD 2 []))) with
    | error err => simp only [parseTraining, h1, h2, h3, hA, h4, h5, h6, h7, hD, if_true, if_false,
                     Bool.false_eq_true, not_true_eq_false, not_false_eq_true, ne_eq] at h ⊢; rw [h]
    | ok duration =>
      by_cases h8 : duration ≤ 0
      · simp only [parseTraining, h1, h2, h3, hA, h4, h5, h6, h7, hD, h8, if_true, if_false,
          Bool.false_eq_true, not_true_eq_false, not_false_eq_true, ne_eq] at h ⊢; rw [h]
      simp only [parseTraining, h1, h2, h3, hA, h4, h5, h6, h7, hD, h8, if_true, if_false,
        Bool.false_eq_true, not_true_eq_false, not_false_eq_true, ne_eq, reduceCtorEq] at h

open daysteps in
theorem daysteps.parsePackage_accepts (data : String)
    (h : (parsePackage data).2.2 = none) :
    ∃ steps duration, 0 < steps ∧ 0 < duration ∧
      (strings.Split data.toList ',').length = 2 ∧
      strconv.Atoi (strings.TrimSpace ((strings.Split data.toList ',').getD 0 [])) =
        .ok steps ∧
      time.ParseDuration (strings.TrimSpace ((strings.Split data.toList ',').getD 1 [])) =
        .ok duration ∧
      parsePackage data = (steps, duration, none) := by
  by_cases h1 : (strings.Split data.toList ',').length = 2
  swap
  · simp only [parsePackage, h1, if_true, if_false, Bool.false_eq_true, not_true_eq_false,
      not_false_eq_true, ne_eq, reduceCtorEq] at h
  by_cases h2 : strings.TrimSpace ((strings.Split data.toList ',').getD 0 []) = []
  · simp only [parsePackage, h1, h2, if_true, if_false, Bool.false_eq_true, not_true_eq_false,
      not_false_eq_true, ne_eq, reduceCtorEq] at h
  cases hA : strconv.Atoi (strings.TrimSpace ((strings.Split data.toList ',').getD 0 [])) with
  | error err => simp only [parsePackage, h1, h2, hA, if_true, if_false, Bool.false_eq_true,
                   not_true_eq_false, not_false_eq_true, ne_eq, reduceCtorEq] at h
  | ok steps =>
    by_cases h4 : steps ≤ 0
    · simp only [parsePackage, h1, h2, hA, h4, if_true, if_false, Bool.false_eq_true,
        not_true_eq_false, not_false_eq_true, ne_eq, reduceCtorEq] at h
    by_cases h6 : strings.TrimSpace ((strings.Split data.toList ',').getD 1 []) = []
    · simp only [parsePackage, h1, h2, hA, h4, h6, if_true, if_false, Bool.false_eq_true,
        not_true_eq_false, not_false_eq_true, ne_eq, reduceCtorEq] at h
    cases hD : time.ParseDuration (strings.TrimSpace ((strings.Split data.toList ',').getD 1 [])) with
    | error err => simp only [parsePackage, h1, h2, hA, h4, h6, hD, if_true, if_false,
                     Bool.false_eq_true, not_true_eq_false, not_false_eq_true, ne_eq, reduceCtorEq] at h
    | ok duration =>
      by_cases h8 : duration ≤ 0
      · simp only [parsePackage, h1, h2, hA, h4, h6, hD, h8, if_true, if_false, Bool.false_eq_true,
          not_true_eq_false, not_false_eq_true, ne_eq, reduceCtorEq] at h
      refine ⟨steps, duration, not_le.mp h4, not_le.mp h8, h1, rfl, rfl, ?_⟩
      simp only [parsePackage, h1, h2, hA, h4, h6, hD, h8, if_true, if_false, Bool.false_eq_true,
        not_true_eq_false, not_false_eq_true, ne_eq]

theorem String.append_ne_empty_left (a b : String) (h : a ≠ "") : a ++ b ≠ "" := by
  intro hab
  apply h
  have hd : (a ++ b).data = [] := by rw [hab]
  rw [String.data_append] at hd
  have ha : a.data = [] := (List.append_eq_nil.mp hd).1
  exact String.ext ha

theorem spentcalories.trainingReport_ne_empty (activityType : String)
    (durationHours dist speed calories : ℚ) :
    spentcalories.report activityType durationHours dist speed calories ≠ "" := by
  unfold spentcalories.report
  repeat apply String.append_ne_empty_left
  decide

theorem daysteps.dayReport_ne_empty (steps : Int) (distanceKm calories : ℚ) :
    daysteps.report steps distanceKm calories ≠ "" := by
  unfold daysteps.report
  repeat apply String.append_ne_empty_left
  decide

/-! ## Training report -/

open spentcalories in
/-- C2: on a record that `parseTraining` accepts and whose trimmed activity label is
neither `"Ходьба"` nor `"Бег"`, `TrainingInfo` returns the empty string and the
unknown-activity error, whatever weight and height are. -/
theorem unknown_activity_rejected (data : String) (weight height : ℚ)
    (hp : (parseTraining data).2.2.2 = none)
    (hw : String.mk (strings.TrimSpace ((strings.Split data.toList ',').getD 1 [])) ≠ "Ходьба")
    (hr : String.mk (strings.TrimSpace ((strings.Split data.toList ',').getD 1 [])) ≠ "Бег") :
    TrainingInfo data weight height = ("", some .unknownActivity) := by
  obtain ⟨steps, duration, _, _, _, _, _, _, heq⟩ := parseTraining_accepts data hp
  simp only [TrainingInfo, heq, hw, hr, if_false]

open spentcalories in
/-- Witness of C2: the swimming record of the specification. -/
theorem unknown_activity_rejected_witness :
    TrainingInfo "1000,Плавание,10m" 75 (7 / 4) = ("", some .unknownActivity) :=
  unknown_activity_rejected "1000,Плавание,10m" 75 (7 / 4) (by decide) (by decide) (by decide)

open spentcalories in
/-- C3: on a three-field record whose trimmed steps field is an integer `≤ 0`,
`TrainingInfo` returns the empty string and the non-positive-steps error, whatever
the other two fields, the weight and the height are. -/
theorem nonpositive_steps_rejected (data : String) (p0 p1 p2 : List Char) (n : Int)
    (weight height : ℚ)
    (hsplit : strings.Split data.toList ',' = [p0, p1, p2])
    (hA : strconv.Atoi (strings.TrimSpace p0) = .ok n) (hn : n ≤ 0) :
    TrainingInfo data weight height = ("", some .stepsNonPositive) := by
  have hne : strings.TrimSpace p0 ≠ [] := (strconv.Atoi_ok_chars _ _ hA).1
  have hb := strconv.Atoi_ok_no_blank _ _ hA
  have hparse : parseTraining data = (0, "", 0, some .stepsNonPositive) := by
    simp only [parseTraining, hsplit, List.length_cons, List.length_nil, List.getD_cons_zero,
      strings.TrimSpace_idem, hne, hb, hA, hn, if_true, if_false, Bool.false_eq_true,
      not_true_eq_false, ne_eq]
  simp only [TrainingInfo, hparse]

open spentcalories in
/-- Witness of C3: the record `"-5,Бег,10m"` of the specification. -/
theorem nonpositive_steps_rejected_witness :
    TrainingInfo "-5,Бег,10m" 75 (7 / 4) = ("", some .stepsNonPositive) :=
  nonpositive_steps_rejected "-5,Бег,10m" "-5".toList "Бег".toList "10m".toList (-5) 75 (7 / 4)
    (by decide) (by rfl) (by decide)

open spentcalories daysteps in
/-- C8: when the record does not split on `,` into exactly 3 fields `parseTraining`
returns the format error, and `parsePackage` when it does not split into exactly 2,
whatever the fields contain; the message gives the expected and the actual count. -/
theorem format_error_on_field_count (data : String) (q1 q2 : String → String) (n : Nat) :
    ((strings.Split data.toList ',').length ≠ 3 →
      parseTraining data = (0, "", 0, some (.format 3 (strings.Split data.toList ',').length))) ∧
    ((strings.Split data.toList ',').length ≠ 2 →
      parsePackage data = (0, 0, some (.format 2 (strings.Split data.toList ',').length))) ∧
    (TrackerError.format 3 n).Error q1 q2 =
      "неверный формат данных: ожидается 3 части, получено " ++ Nat.repr n ∧
    (TrackerError.format 2 n).Error q1 q2 =
      "неверный формат данных: ожидается 2 части, получено " ++ Nat.repr n ∧
    parseTraining " ,x y" = (0, "", 0, some (.format 3 2)) ∧
    parsePackage "1,2,3" = (0, 0, some (.format 2 3)) ∧
    (TrackerError.format 3 2).Error q1 q2 =
      "неверный формат данных: ожидается 3 части, получено 2" := by
  refine ⟨?_, ?_, ?_, ?_, by decide, by decide, by rfl⟩
  · intro h
    unfold parseTraining
    exact if_pos h
  · intro h
    unfold parsePackage
    exact if_pos h
  · show "неверный формат данных: ожидается " ++ Nat.repr 3 ++ " части, получено " ++ Nat.repr n = _
    have : "неверный формат данных: ожидается " ++ Nat.repr 3 ++ " части, получено "
        = "неверный формат данных: ожидается 3 части, получено " := by decide
    rw [this]
  · show "неверный формат данных: ожидается " ++ Nat.repr 2 ++ " части, получено " ++ Nat.repr n = _
    have : "неверный формат данных: ожидается " ++ Nat.repr 2 ++ " части, получено "
        = "неверный формат данных: ожидается 2 части, получено " := by decide
    rw [this]

open spentcalories in
/-- C10: `TrainingInfo` returns either a non-empty report with no error or the empty
string with an error; an error of `parseTraining` and an error of the selected
calorie function are returned as they are. -/
theorem training_info_result (data : String) (weight height : ℚ) :
    (((TrainingInfo data weight height).2 = none ∧ (TrainingInfo data weight height).1 ≠ "") ∨
      ((TrainingInfo data weight height).2 ≠ none ∧ (TrainingInfo data weight height).1 = "")) ∧
    (∀ e, (parseTraining data).2.2.2 = some e →
      TrainingInfo data weight height = ("", some e)) ∧
    (∀ steps duration e, parseTraining data = (steps, "Ходьба", duration, none) →
      (WalkingSpentCalories steps weight height duration).2 = some e →
      TrainingInfo data weight height = ("", some e)) ∧
    (∀ steps duration e, parseTraining data = (steps, "Бег", duration, none) →
      (RunningSpentCalories steps weight height duration).2 = some e →
      TrainingInfo data weight height = ("", some e)) := by
  have hpe : ∀ e, (parseTraining data).2.2.2 = some e →
      TrainingInfo data weight height = ("", some e) := by
    intro e he
    simp only [TrainingInfo, parseTraining_error_zero data e he]
  have hwalk : ∀ steps duration e, parseTraining data = (steps, "Ходьба", duration, none) →
      (WalkingSpentCalories steps weight height duration).2 = some e →
      TrainingInfo data weight height = ("", some e) := by
    intro steps duration e hp he
    rcases hW : WalkingSpentCalories steps weight height duration with ⟨c, err⟩
    rw [hW] at he
    simp only at he
    subst he
    simp only [TrainingInfo, hp, if_true, hW]
  have hrun : ∀ steps duration e, parseTraining data = (steps, "Бег", duration, none) →
      (RunningSpentCalories steps weight height duration).2 = some e →
      TrainingInfo data weight height = ("", some e) := by
    intro steps duration e hp he
    rcases hR : RunningSpentCalories steps weight height duration with ⟨c, err⟩
    rw [hR] at he
    simp only at he
    subst he
    have hne : ¬ ("Бег" = "Ходьба") := by decide
    simp only [TrainingInfo, hp, hne, if_true, if_false, hR]
  refine ⟨?_, hpe, hwalk, hrun⟩
  cases hp : (parseTraining data).2.2.2 with
  | some e =>
    right
    rw [hpe e hp]
    simp
  | none =>
    obtain ⟨steps, duration, _, _, _, _, _, _, heq⟩ := parseTraining_accepts data hp
    generalize String.mk (strings.TrimSpace ((strings.Split data.toList ',').getD 1 [])) = label
      at heq
    by_cases hl1 : label = "Ходьба"
    · subst hl1
      rcases hW : WalkingSpentCalories steps weight height duration with ⟨c, err⟩
      cases err with
      | some e =>
        right
        rw [hwalk steps duration e heq (by rw [hW])]
        simp
      | none =>
        left
        simp only [TrainingInfo, heq, if_true, hW]
        exact ⟨trivial, trainingReport_ne_empty _ _ _ _ _⟩
    · by_cases hl2 : label = "Бег"
      · subst hl2
        rcases hR : RunningSpentCalories steps weight height duration with ⟨c, err⟩
        cases err with
        | some e =>
          right
          rw [hrun steps duration e heq (by rw [hR])]
          simp
        | none =>
          left
          simp only [TrainingInfo, heq, hl1, if_true, if_false, hR]
          exact ⟨trivial, trainingReport_ne_empty _ _ _ _ _⟩
      · right
        simp only [TrainingInfo, heq, hl1, hl2, if_false]
        simp

/-! ## Daily steps report -/

open daysteps in
/-- C4: `DayActionInfo` returns the empty string exactly when `parsePackage` fails or
the weight or the height is not positive, and a non-empty string otherwise;
`parsePackage` fails exactly when the record has not two fields, or the steps field or
the duration field is not a positive value that parses. -/
theorem day_action_empty_iff (data : String) (weight height : ℚ) :
    (DayActionInfo data weight height = "" ↔
      ((parsePackage data).2.2 ≠ none ∨ weight ≤ 0 ∨ height ≤ 0)) ∧
    ((parsePackage data).2.2 ≠ none ↔
      ¬ ((strings.Split data.toList ',').length = 2 ∧
        (∃ steps, strconv.Atoi (strings.TrimSpace ((strings.Split data.toList ',').getD 0 []))
          = .ok steps ∧ 0 < steps) ∧
        (∃ duration,
          time.ParseDuration (strings.TrimSpace ((strings.Split data.toList ',').getD 1 []))
            = .ok duration ∧ 0 < duration))) ∧
    DayActionInfo "abc,30m" 75 (7 / 4) = "" := by
  refine ⟨?_, ?_, by decide⟩
  · cases hp : (parsePackage data).2.2 with
    | some e =>
      rcases hpp : parsePackage data with ⟨a, b, err⟩
      rw [hpp] at hp
      simp only at hp
      subst hp
      simp [DayActionInfo, hpp]
    | none =>
      obtain ⟨steps, duration, hs, hd, _, _, _, heq⟩ := parsePackage_accepts data hp
      simp only [DayActionInfo, heq, not_le.mpr hs, if_false, ne_eq, not_true_eq_false,
        false_or]
      by_cases hw : weight ≤ 0
      · simp [spentcalories.WalkingSpentCalories, not_le.mpr hs, hw]
      · by_cases hh : height ≤ 0
        · simp [spentcalories.WalkingSpentCalories, not_le.mpr hs, hw, hh]
        · simp only [spentcalories.WalkingSpentCalories, not_le.mpr hs, hw, hh, not_le.mpr hd,
            if_false, or_self, iff_false]
          exact dayReport_ne_empty _ _ _
  · constructor
    · intro hne hacc
      obtain ⟨h1, ⟨steps, hA, hs⟩, ⟨duration, hD, hd⟩⟩ := hacc
      apply hne
      have h2 : strings.TrimSpace ((strings.Split data.toList ',').getD 0 []) ≠ [] :=
        (strconv.Atoi_ok_chars _ _ hA).1
      have h6 : strings.TrimSpace ((strings.Split data.toList ',').getD 1 []) ≠ [] := by
        intro h
        rw [h] at hD
        have hnil : time.ParseDuration [] = .error (.invalid "") := rfl
        rw [hnil] at hD
        cases hD
      simp only [parsePackage, h1, h2, hA, not_le.mpr hs, h6, hD, not_le.mpr hd, if_true,
        if_false, not_true_eq_false, ne_eq]
    · intro hnacc hnone
      apply hnacc
      obtain ⟨steps, duration, hs, hd, h1, hA, hD, _⟩ := parsePackage_accepts data hnone
      exact ⟨h1, ⟨steps, hA, hs⟩, ⟨duration, hD, hd⟩⟩

theorem ite_ne_of_ne {α : Type} (c : Prop) [Decidable c] (a b x : α) (ha : a ≠ x)
    (hb : b ≠ x) : (if c then a else b) ≠ x := by
  split <;> assumption

theorem Nat.digitChar_ne_newline (d : Nat) : Nat.digitChar d ≠ '\n' := by
  unfold Nat.digitChar
  repeat' apply ite_ne_of_ne
  all_goals decide

theorem Nat.toDigitsCore_no_newline (fuel : Nat) :
    ∀ (n : Nat) (acc : List Char), (∀ c ∈ acc, c ≠ '\n') →
      ∀ c ∈ Nat.toDigitsCore 10 fuel n acc, c ≠ '\n' := by
  induction fuel with
  | zero => intro n acc hacc c hc; exact hacc c (by simpa [Nat.toDigitsCore] using hc)
  | succ fuel ih =>
    intro n acc hacc c hc
    have hacc2 : ∀ c ∈ Nat.digitChar (n % 10) :: acc, c ≠ '\n' := by
      intro c hc
      rcases List.mem_cons.mp hc with rfl | hc
      · exact Nat.digitChar_ne_newline _
      · exact hacc c hc
    simp only [Nat.toDigitsCore] at hc
    split_ifs at hc
    · exact hacc2 c hc
    · exact ih _ _ hacc2 c hc

theorem Nat.repr_no_newline (n : Nat) : ∀ c ∈ (Nat.repr n).data, c ≠ '\n' := by
  intro c hc
  exact Nat.toDigitsCore_no_newline _ n [] (by simp) c hc

theorem fmt.formatInt_no_newline (n : Int) : ∀ c ∈ (fmt.formatInt n).data, c ≠ '\n' := by
  intro c hc
  unfold fmt.formatInt at hc
  split_ifs at hc
  · rw [String.data_append] at hc
    rcases List.mem_append.mp hc with h | h
    · have : c = '-' := by simpa using h
      subst this; decide
    · exact Nat.repr_no_newline _ c h
  · exact Nat.repr_no_newline _ c hc

theorem fmt.formatF2_no_newline (x : ℚ) : ∀ c ∈ (fmt.formatF2 x).data, c ≠ '\n' := by
  intro c hc
  unfold fmt.formatF2 at hc
  simp only [String.data_append, List.mem_append] at hc
  rcases hc with (((h | h) | h) | h) | h
  · split_ifs at h
    · have : c = '-' := by simpa using h
      subst this; decide
    · simp at h
  · exact Nat.repr_no_newline _ c h
  · have : c = '.' := by simpa using h
    subst this; decide
  · exact Nat.repr_no_newline _ c h
  · exact Nat.repr_no_newline _ c h

theorem strings.splitFields_append (sep : Char) (b : List Char) :
    ∀ a : List Char, (∀ c ∈ a, c ≠ sep) →
      strings.splitFields sep (a ++ sep :: b) = (a, strings.Split b sep) := by
  intro a
  induction a with
  | nil => intro _; simp [strings.splitFields, strings.Split]
  | cons x a ih =>
    intro h
    have hx : x ≠ sep := h x (List.mem_cons_self _ _)
    have := ih (fun c hc => h c (List.mem_cons_of_mem _ hc))
    simp [strings.splitFields, hx, this]

theorem strings.Split_append (sep : Char) (a b : List Char) (h : ∀ c ∈ a, c ≠ sep) :
    strings.Split (a ++ sep :: b) sep = a :: strings.Split b sep := by
  unfold strings.Split
  rw [strings.splitFields_append sep b a h]
  rfl

/-! ## Blanks in numeric fields -/

theorem strings.ContainsAny_blank (s : List Char) :
    strings.ContainsAny s [' ', '\t', '\n'] = true ↔
      ∃ c ∈ s, c = ' ' ∨ c = '\t' ∨ c = '\n' := by
  unfold strings.ContainsAny
  rw [List.any_eq_true]
  constructor
  · rintro ⟨c, hc, h⟩
    exact ⟨c, hc, by simpa using h⟩
  · rintro ⟨c, hc, h⟩
    exact ⟨c, hc, by simpa using h⟩

theorem strconv.isDigit_not_blank (c : Char) (h : strconv.isDigit c = true) :
    ¬ (c = ' ' ∨ c = '\t' ∨ c = '\n') := by
  rintro (rfl | rfl | rfl) <;> simp [strconv.isDigit] at h

theorem strconv.Atoi_blank (s : List Char)
    (h : strings.ContainsAny s [' ', '\t', '\n'] = true) :
    ∃ e, strconv.Atoi s = .error e := by
  cases hA : strconv.Atoi s with
  | error e => exact ⟨e, rfl⟩
  | ok n =>
    rw [strconv.Atoi_ok_no_blank s n hA] at h
    cases h

theorem time.leadingInt_rest (s : List Char) :
    ∀ (x v : Nat) (r : List Char), time.leadingInt x s = some (v, r) →
      ∃ pre, s = pre ++ r ∧ ∀ c ∈ pre, strconv.isDigit c = true := by
  induction s with
  | nil =>
    intro x v r h
    simp only [time.leadingInt, Option.some.injEq, Prod.mk.injEq] at h
    exact ⟨[], by simp [h.2], by simp⟩
  | cons a s ih =>
    intro x v r h
    unfold time.leadingInt at h
    by_cases ha : strconv.isDigit a = true
    · simp only [ha, Bool.not_true, Bool.false_eq_true, if_false] at h
      split_ifs at h
      obtain ⟨pre, hpre, hd⟩ := ih _ _ _ h
      refine ⟨a :: pre, by simp [hpre], ?_⟩
      intro c hc
      rcases List.mem_cons.mp hc with rfl | hc
      · exact ha
      · exact hd c hc
    · simp only [ha, Bool.not_false, if_true, Option.some.injEq, Prod.mk.injEq] at h
      exact ⟨[], by simp [h.2], by simp⟩

theorem time.leadingFraction_rest (s : List Char) :
    ∀ (x scale : Nat) (o : Bool),
      ∃ pre, s = pre ++ (time.leadingFraction x scale o s).2.2 ∧
        ∀ c ∈ pre, strconv.isDigit c = true := by
  induction s with
  | nil => intro x scale o; exact ⟨[], by simp [time.leadingFraction], by simp⟩
  | cons a s ih =>
    intro x scale o
    by_cases ha : strconv.isDigit a = true
    · have step : ∃ x1 sc1 o1, time.leadingFraction x scale o (a :: s) =
          time.leadingFraction x1 sc1 o1 s := by
        simp only [time.leadingFraction, ha, Bool.not_true, Bool.false_eq_true, if_false]
        split_ifs
        · exact ⟨_, _, _, rfl⟩
        · exact ⟨_, _, _, rfl⟩
        · exact ⟨_, _, _, rfl⟩
        · exact ⟨_, _, _, rfl⟩
      obtain ⟨x1, sc1, o1, hstep⟩ := step
      obtain ⟨pre, hpre, hd⟩ := ih x1 sc1 o1
      rw [hstep]
      refine ⟨a :: pre, by rw [List.cons_append, ← hpre], ?_⟩
      intro c hc
      rcases List.mem_cons.mp hc with rfl | hc
      · exact ha
      · exact hd c hc
    · refine ⟨[], ?_, by simp⟩
      unfold time.leadingFraction
      simp [ha]

theorem time.fractionPart_rest (s : List Char) :
    ∃ pre, s = pre ++ (time.fractionPart s).2.2.1 ∧
      ∀ c ∈ pre, ¬ (c = ' ' ∨ c = '\t' ∨ c = '\n') := by
  cases s with
  | nil => exact ⟨[], by simp [time.fractionPart], by simp⟩
  | cons a r =>
    by_cases ha : (a == '.') = true
    · obtain ⟨pre, hpre, hd⟩ := time.leadingFraction_rest r 0 1 false
      refine ⟨a :: pre, ?_, ?_⟩
      · simp only [time.fractionPart, ha, if_true, List.cons_append]
        rw [← hpre]
      · intro c hc
        rcases List.mem_cons.mp hc with rfl | hc
        · have : c = '.' := by simpa using ha
          subst this
          decide
        · exact strconv.isDigit_not_blank c (hd c hc)
    · exact ⟨[], by simp [time.fractionPart, ha], by simp⟩

theorem time.unitMap_no_blank (u : List Char) (k : Nat) (h : time.unitMap u = some k) :
    ∀ c ∈ u, ¬ (c = ' ' ∨ c = '\t' ∨ c = '\n') := by
  unfold time.unitMap at h
  split_ifs at h with h1 h2 h3 h4 h5 h6 h7 h8
  all_goals subst u
  all_goals decide

theorem time.parseGroup_rest (c : Char) (cs : List Char) (v : Nat) (s3 : List Char)
    (h : time.parseGroup c cs = .ok (v, s3)) :
    ∃ pre, c :: cs = pre ++ s3 ∧ pre ≠ [] ∧ ∀ x ∈ pre, ¬ (x = ' ' ∨ x = '\t' ∨ x = '\n') := by
  unfold time.parseGroup at h
  by_cases h0 : (!(c == '.' || strconv.isDigit c)) = true
  · rw [if_pos h0] at h
    cases h
  rw [if_neg h0] at h
  cases hL : time.leadingInt 0 (c :: cs) with
  | none =>
    rw [hL] at h
    cases h
  | some p =>
    obtain ⟨v1, s1⟩ := p
    rw [hL] at h
    simp only [] at h
    obtain ⟨pre1, hpre1, hd1⟩ := time.leadingInt_rest _ _ _ _ hL
    obtain ⟨pre2, hpre2, hb2⟩ := time.fractionPart_rest s1
    generalize time.fractionPart s1 = fr at h hpre2
    have htd := List.takeWhile_append_dropWhile (fun x => !time.endsUnit x) fr.2.2.1
    have key : ∀ unit,
        time.unitMap (List.takeWhile (fun x => !time.endsUnit x) fr.2.2.1) = some unit →
        List.takeWhile (fun x => !time.endsUnit x) fr.2.2.1 ≠ [] →
        ∃ pre, c :: cs = pre ++ List.dropWhile (fun x => !time.endsUnit x) fr.2.2.1 ∧
          pre ≠ [] ∧ ∀ x ∈ pre, ¬ (x = ' ' ∨ x = '\t' ∨ x = '\n') := by
      intro unit hunit hne
      refine ⟨pre1 ++ pre2 ++ List.takeWhile (fun x => !time.endsUnit x) fr.2.2.1, ?_, ?_, ?_⟩
      · rw [List.append_assoc, List.append_assoc, htd, ← hpre2, ← hpre1]
      · intro hnil
        exact hne (List.append_eq_nil.mp hnil).2
      · intro x hx
        rcases List.mem_append.mp hx with hx | hx
        · rcases List.mem_append.mp hx with hx | hx
          · exact strconv.isDigit_not_blank x (hd1 x hx)
          · exact hb2 x hx
        · exact time.unitMap_no_blank _ _ hunit x hx
    by_cases hu : List.takeWhile (fun x => !time.endsUnit x) fr.2.2.1 = []
    · rw [if_pos hu] at h
      split_ifs at h
    · rw [if_neg hu] at h
      cases hunit : time.unitMap (List.takeWhile (fun x => !time.endsUnit x) fr.2.2.1) with
      | none =>
        rw [hunit] at h
        split_ifs at h
      | some unit =>
        rw [hunit] at h
        simp only [] at h
        split_ifs at h
        all_goals
          simp only [Except.ok.injEq, Prod.mk.injEq] at h
          rw [← h.2]
          exact key unit hunit hu

theorem time.parseLoop_blank (fuel : Nat) :
    ∀ (d : Nat) (s : List Char), (∃ c ∈ s, c = ' ' ∨ c = '\t' ∨ c = '\n') →
      ∃ e, time.parseLoop fuel d s = .error e := by
  induction fuel with
  | zero =>
    intro d s hs
    cases s with
    | nil => obtain ⟨c, hc, _⟩ := hs; simp at hc
    | cons a t => exact ⟨_, rfl⟩
  | succ fuel ih =>
    intro d s hs
    cases s with
    | nil => obtain ⟨c, hc, _⟩ := hs; simp at hc
    | cons a t =>
      simp only [time.parseLoop]
      cases hg : time.parseGroup a t with
      | error e => exact ⟨_, rfl⟩
      | ok p =>
        obtain ⟨v, s3⟩ := p
        obtain ⟨pre, hpre, _, hb⟩ := time.parseGroup_rest a t v s3 hg
        simp only []
        split_ifs
        · exact ⟨_, rfl⟩
        · apply ih
          obtain ⟨c, hc, hblank⟩ := hs
          rw [hpre] at hc
          rcases List.mem_append.mp hc with hc | hc
          · exact absurd hblank (hb c hc)
          · exact ⟨c, hc, hblank⟩

theorem time.ParseDuration_blank (s : List Char)
    (h : strings.ContainsAny s [' ', '\t', '\n'] = true) :
    ∃ e, time.ParseDuration s = .error e := by
  rw [strings.ContainsAny_blank] at h
  have hs1 : ∃ c ∈ (if s.head? = some '+' ∨ s.head? = some '-' then s.tail else s),
      c = ' ' ∨ c = '\t' ∨ c = '\n' := by
    obtain ⟨c, hc, hblank⟩ := h
    split_ifs with hsign
    · cases s with
      | nil => simp at hc
      | cons a t =>
        rcases List.mem_cons.mp hc with rfl | hc
        · simp only [List.head?_cons, Option.some.injEq] at hsign
          rcases hsign with rfl | rfl <;> rcases hblank with hb | hb | hb <;> cases hb
        · exact ⟨c, hc, hblank⟩
    · exact ⟨c, hc, hblank⟩
  unfold time.ParseDuration
  simp only []
  generalize (if s.head? = some '+' ∨ s.head? = some '-' then s.tail else s) = s1 at hs1
  have h0 : s1 ≠ ['0'] := by
    rintro rfl
    obtain ⟨c, hc, hblank⟩ := hs1
    have : c = '0' := by simpa using hc
    subst this
    rcases hblank with hb | hb | hb <;> cases hb
  have hne : s1 ≠ [] := by
    rintro rfl
    obtain ⟨c, hc, _⟩ := hs1
    simp at hc
  rw [if_neg h0, if_neg hne]
  obtain ⟨e, he⟩ := time.parseLoop_blank s1.length 0 s1 hs1
  rw [he]
  cases e <;> exact ⟨_, rfl⟩

/-- The fuel of `time.parseLoop` is never used up: any fuel from the length of the
input on gives the same result. -/
theorem time.parseLoop_fuel (n : Nat) :
    ∀ (fuel d : Nat) (s : List Char), s.length ≤ n → s.length ≤ fuel →
      time.parseLoop fuel d s = time.parseLoop s.length d s := by
  induction n with
  | zero =>
    intro fuel d s hn _
    have : s = [] := List.length_eq_zero.mp (Nat.le_zero.mp hn)
    subst this
    cases fuel <;> rfl
  | succ n ih =>
    intro fuel d s hn hf
    cases s with
    | nil => cases fuel <;> rfl
    | cons a t =>
      cases fuel with
      | zero => simp at hf
      | succ fuel =>
        simp only [List.length_cons, time.parseLoop]
        cases hg : time.parseGroup a t with
        | error e => rfl
        | ok p =>
          obtain ⟨v, s3⟩ := p
          obtain ⟨pre, hpre, hne, _⟩ := time.parseGroup_rest a t v s3 hg
          have hlen : s3.length ≤ t.length := by
            have h1 : (a :: t).length = pre.length + s3.length := by
              rw [hpre, List.length_append]
            have h2 : 0 < pre.length := List.length_pos.mpr hne
            simp only [List.length_cons] at h1
            omega
          simp only []
          split_ifs
          · rfl
          · simp only [List.length_cons] at hn hf
            rw [ih fuel _ s3 (by omega) (by omega), ih t.length _ s3 (by omega) hlen]

open spentcalories daysteps in
/-- C9, as stated, fails: `parsePackage` has no check for blanks, so the steps field
`"1 0"` is rejected with the parse-failure error; in `parseTraining` a carriage return
inside the steps field is not seen by the check for blanks, and a blank inside the
duration field is not reported when the steps field is rejected first. -/
theorem blank_in_numeric_field_counterexample :
    (strings.Split "1 0,30m".toList ',').getD 0 [] = "1 0".toList ∧
    strings.TrimSpace "1 0".toList = "1 0".toList ∧
    strings.ContainsAny "1 0".toList [' ', '\t', '\n'] = true ∧
    parsePackage "1 0,30m" = (0, 0, some (.stepsParse ⟨"Atoi", "1 0", .ErrSyntax⟩)) ∧
    parsePackage "10,3 0m" = (0, 0, some (.durationParse (.unknownUnit " " "3 0m"))) ∧
    parseTraining "1\r0,Бег,30m" =
      (0, "", 0, some (.stepsParse ⟨"Atoi", "1\r0", .ErrSyntax⟩)) ∧
    parseTraining "0,Бег,3 0m" = (0, "", 0, some .stepsNonPositive) := by
  refine ⟨by decide, by decide, by decide, by decide, by decide, by decide, by decide⟩

open spentcalories daysteps in
/-- C9, amended: in `parseTraining` a steps field that contains a space, a tab or a
newline after trimming is rejected with the steps-contain-blanks error, and such a
duration field with the duration-contains-blanks error once the steps field is a
positive integer and the label is not empty; `parsePackage` has no such check and
rejects these fields with the parse-failure error of the field. -/
theorem blank_in_numeric_field (data : String) (p0 p1 p2 : List Char) (n : Int) :
    (strings.Split data.toList ',' = [p0, p1, p2] → strings.TrimSpace p0 ≠ [] →
      strings.ContainsAny (strings.TrimSpace p0) [' ', '\t', '\n'] = true →
      parseTraining data = (0, "", 0, some .stepsWhitespace)) ∧
    (strings.Split data.toList ',' = [p0, p1, p2] →
      strconv.Atoi (strings.TrimSpace p0) = .ok n → 0 < n → strings.TrimSpace p1 ≠ [] →
      strings.TrimSpace p2 ≠ [] →
      strings.ContainsAny (strings.TrimSpace p2) [' ', '\t', '\n'] = true →
      parseTraining data = (0, "", 0, some .durationWhitespace)) ∧
    (strings.Split data.toList ',' = [p0, p1] → strings.TrimSpace p0 ≠ [] →
      strings.ContainsAny (strings.TrimSpace p0) [' ', '\t', '\n'] = true →
      ∃ e, parsePackage data = (0, 0, some (.stepsParse e))) ∧
    (strings.Split data.toList ',' = [p0, p1] →
      strconv.Atoi (strings.TrimSpace p0) = .ok n → 0 < n → strings.TrimSpace p1 ≠ [] →
      strings.ContainsAny (strings.TrimSpace p1) [' ', '\t', '\n'] = true →
      ∃ e, parsePackage data = (0, 0, some (.durationParse e))) := by
  refine ⟨?_, ?_, ?_, ?_⟩
  · intro hsplit hne hb
    simp only [parseTraining, hsplit, List.length_cons, List.length_nil, List.getD_cons_zero,
      strings.TrimSpace_idem, hne, hb, if_true, if_false, not_true_eq_false, ne_eq]
  · intro hsplit hA hn h1 h2 hb
    have hne : strings.TrimSpace p0 ≠ [] := (strconv.Atoi_ok_chars _ _ hA).1
    have hb0 := strconv.Atoi_ok_no_blank _ _ hA
    simp only [parseTraining, hsplit, List.length_cons, List.length_nil, List.getD_cons_zero,
      List.getD_cons_succ, strings.TrimSpace_idem, hne, hb0, hA, not_le.mpr hn, h1, h2, hb,
      if_true, if_false, Bool.false_eq_true, not_true_eq_false, ne_eq]
  · intro hsplit hne hb
    obtain ⟨e, he⟩ := strconv.Atoi_blank _ hb
    refine ⟨e, ?_⟩
    simp only [parsePackage, hsplit, List.length_cons, List.length_nil, List.getD_cons_zero,
      hne, he, if_true, if_false, not_true_eq_false, ne_eq]
  · intro hsplit hA hn h1 hb
    have hne : strings.TrimSpace p0 ≠ [] := (strconv.Atoi_ok_chars _ _ hA).1
    obtain ⟨e, he⟩ := time.ParseDuration_blank _ hb
    refine ⟨e, ?_⟩
    simp only [parsePackage, hsplit, List.length_cons, List.length_nil, List.getD_cons_zero,
      List.getD_cons_succ, hne, hA, not_le.mpr hn, h1, he, if_true, if_false,
      not_true_eq_false, ne_eq]

open spentcalories in
/-- Witness of the amended C9: the steps field `"1 0"` in a training record. -/
theorem blank_in_numeric_field_witness :
    parseTraining "1 0,Бег,30m" = (0, "", 0, some .stepsWhitespace) :=
  (blank_in_numeric_field "1 0,Бег,30m" "1 0".toList "Бег".toList "30m".toList 0).1
    (by decide) (by decide) (by decide)

/-! ## Distance, speed and calories -/

theorem time.Hours_eq (d : Int) : time.Hours d = (d : ℚ) / 3600000000000 := by
  unfold time.Hours time.Hour
  have h := Int.tdiv_add_tmod d 3600000000000
  have hq : ((3600000000000 : Int) : ℚ) * ((d.tdiv 3600000000000 : Int) : ℚ) +
      ((d.tmod 3600000000000 : Int) : ℚ) = (d : ℚ) := by
    exact_mod_cast h
  rw [← hq]
  push_cast
  ring

theorem time.Minutes_eq (d : Int) : time.Minutes d = (d : ℚ) / 60000000000 := by
  unfold time.Minutes time.Minute
  have h := Int.tdiv_add_tmod d 60000000000
  have hq : ((60000000000 : Int) : ℚ) * ((d.tdiv 60000000000 : Int) : ℚ) +
      ((d.tmod 60000000000 : Int) : ℚ) = (d : ℚ) := by
    exact_mod_cast h
  rw [← hq]
  push_cast
  ring

theorem time.Hours_pos (d : Int) (hd : 0 < d) : 0 < time.Hours d := by
  rw [time.Hours_eq]
  have : (0 : ℚ) < (d : ℚ) := by exact_mod_cast hd
  positivity

theorem spentcalories.meanSpeed_of_pos (steps : Int) (height : ℚ) (duration : Int)
    (hd : 0 < duration) :
    spentcalories.meanSpeed steps height duration =
      spentcalories.distance steps height / time.Hours duration := by
  have hne : time.Hours duration ≠ 0 := ne_of_gt (time.Hours_pos duration hd)
  simp only [spentcalories.meanSpeed, not_le.mpr hd, if_false, hne]

theorem spentcalories.speed_times_minutes (steps : Int) (height : ℚ) (duration : Int)
    (hd : 0 < duration) :
    spentcalories.meanSpeed steps height duration * time.Minutes duration / 60 =
      spentcalories.distance steps height := by
  rw [spentcalories.meanSpeed_of_pos steps height duration hd, time.Hours_eq, time.Minutes_eq]
  have : (duration : ℚ) ≠ 0 := by
    have : (0 : ℚ) < (duration : ℚ) := by exact_mod_cast hd
    exact ne_of_gt this
  generalize spentcalories.distance steps height = dist
  generalize (duration : ℚ) = x at this
  rw [div_mul_div_comm, div_div, div_eq_iff (mul_ne_zero (mul_ne_zero (div_ne_zero this (by norm_num)) (by norm_num)) (by norm_num))]
  ring

theorem spentcalories.distance_nonneg (steps : Int) (height : ℚ) (hs : 0 < steps)
    (hh : 0 < height) : 0 ≤ spentcalories.distance steps height := by
  unfold spentcalories.distance spentcalories.stepLengthCoefficient spentcalories.mInKm
  have : (0 : ℚ) < (steps : ℚ) := by exact_mod_cast hs
  positivity

theorem spentcalories.Running_of_pos (steps : Int) (weight height : ℚ) (duration : Int)
    (hs : 0 < steps) (hw : 0 < weight) (hh : 0 < height) (hd : 0 < duration) :
    spentcalories.RunningSpentCalories steps weight height duration =
      (weight * spentcalories.distance steps height, none) := by
  simp only [spentcalories.RunningSpentCalories, not_le.mpr hs, not_le.mpr hw, not_le.mpr hh,
    not_le.mpr hd, if_false, spentcalories.minInH, Prod.mk.injEq, and_true]
  rw [mul_assoc, mul_div_assoc, spentcalories.speed_times_minutes steps height duration hd]

theorem spentcalories.Walking_of_pos (steps : Int) (weight height : ℚ) (duration : Int)
    (hs : 0 < steps) (hw : 0 < weight) (hh : 0 < height) (hd : 0 < duration) :
    spentcalories.WalkingSpentCalories steps weight height duration =
      (1 / 2 * weight * spentcalories.distance steps height, none) := by
  simp only [spentcalories.WalkingSpentCalories, not_le.mpr hs, not_le.mpr hw, not_le.mpr hh,
    not_le.mpr hd, if_false, spentcalories.minInH, spentcalories.walkingCaloriesCoefficient,
    Prod.mk.injEq, and_true]
  rw [mul_assoc weight, mul_div_assoc,
    spentcalories.speed_times_minutes steps height duration hd]
  ring

open spentcalories in
/-- C11: for positive steps, weight, height and duration the distance, the mean speed
and the values returned by both calorie functions are not negative. -/
theorem metrics_nonneg (steps : Int) (weight height : ℚ) (duration : Int)
    (hs : 0 < steps) (hw : 0 < weight) (hh : 0 < height) (hd : 0 < duration) :
    0 ≤ distance steps height ∧ 0 ≤ meanSpeed steps height duration ∧
    0 ≤ (WalkingSpentCalories steps weight height duration).1 ∧
    0 ≤ (RunningSpentCalories steps weight height duration).1 := by
  have hdist := distance_nonneg steps height hs hh
  refine ⟨hdist, ?_, ?_, ?_⟩
  · rw [meanSpeed_of_pos steps height duration hd]
    exact div_nonneg hdist (le_of_lt (time.Hours_pos duration hd))
  · rw [Walking_of_pos steps weight height duration hs hw hh hd]
    exact mul_nonneg (mul_nonneg (by norm_num) (le_of_lt hw)) hdist
  · rw [Running_of_pos steps weight height duration hs hw hh hd]
    exact mul_nonneg (le_of_lt hw) hdist

open spentcalories in
/-- Witness of C11 at 3456 steps, 75 kg, 1.75 m and 45 minutes. -/
theorem metrics_nonneg_witness :
    0 ≤ distance 3456 (7 / 4) ∧ 0 ≤ meanSpeed 3456 (7 / 4) 2700000000000 ∧
    0 ≤ (WalkingSpentCalories 3456 75 (7 / 4) 2700000000000).1 ∧
    0 ≤ (RunningSpentCalories 3456 75 (7 / 4) 2700000000000).1 :=
  metrics_nonneg 3456 75 (7 / 4) 2700000000000 (by decide) (by norm_num) (by norm_num)
    (by decide)

open spentcalories in
/-- C14: `meanSpeed` is 0 for a duration `≤ 0`; for a positive duration the number of
hours is not zero, so the division is by a non-zero number, and the result is
`distance / hours`, the hours being the nanoseconds over `3.6e12`. -/
theorem mean_speed_cases (steps : Int) (height : ℚ) (duration : Int) :
    (duration ≤ 0 → meanSpeed steps height duration = 0) ∧
    (0 < duration → time.Hours duration ≠ 0 ∧
      time.Hours duration = (duration : ℚ) / 3600000000000 ∧
      meanSpeed steps height duration = distance steps height / time.Hours duration) ∧
    meanSpeed 3456 (7 / 4) 0 = 0 ∧
    meanSpeed 3456 (7 / 4) 2700000000000 = distance 3456 (7 / 4) / (3 / 4) := by
  refine ⟨?_, ?_, by decide!, by decide!⟩
  · intro hd
    simp only [meanSpeed, hd, if_true]
  · intro hd
    exact ⟨ne_of_gt (time.Hours_pos duration hd), time.Hours_eq duration,
      meanSpeed_of_pos steps height duration hd⟩

open spentcalories in
/-- C15: `distance steps height` is `steps * (height * 0.45) / 1000`: a step of
`height * 0.45` metres, the result in kilometres. -/
theorem distance_formula (steps : Int) (height : ℚ) :
    distance steps height = (steps : ℚ) * (height * (45 / 100)) / 1000 ∧
    distance 3456 (7 / 4) = 27216 / 10000 := by
  refine ⟨rfl, by decide!⟩

open spentcalories in
/-- C18: over exact arithmetic, for positive arguments the running calories are
`weight * distance` and the walking calories `0.5 * weight * distance`, so neither
depends on the duration. -/
theorem calories_independent_of_duration (steps : Int) (weight height : ℚ) (d1 d2 : Int)
    (hs : 0 < steps) (hw : 0 < weight) (hh : 0 < height) (h1 : 0 < d1) (h2 : 0 < d2) :
    RunningSpentCalories steps weight height d1 = (weight * distance steps height, none) ∧
    RunningSpentCalories steps weight height d1 = RunningSpentCalories steps weight height d2 ∧
    WalkingSpentCalories steps weight height d1 =
      (1 / 2 * weight * distance steps height, none) ∧
    WalkingSpentCalories steps weight height d1 =
      WalkingSpentCalories steps weight height d2 := by
  refine ⟨Running_of_pos steps weight height d1 hs hw hh h1, ?_,
    Walking_of_pos steps weight height d1 hs hw hh h1, ?_⟩
  · rw [Running_of_pos steps weight height d1 hs hw hh h1,
      Running_of_pos steps weight height d2 hs hw hh h2]
  · rw [Walking_of_pos steps weight height d1 hs hw hh h1,
      Walking_of_pos steps weight height d2 hs hw hh h2]

open spentcalories in
/-- Witness of C18: 45 minutes and 3 hours give the same running calories. -/
theorem calories_independent_of_duration_witness :
    RunningSpentCalories 3456 75 (7 / 4) 2700000000000 =
      RunningSpentCalories 3456 75 (7 / 4) 10800000000000 :=
  (calories_independent_of_duration 3456 75 (7 / 4) 2700000000000 10800000000000 (by decide)
    (by norm_num) (by norm_num) (by decide) (by decide)).2.1

open daysteps in
/-- C20: after a successful `parsePackage` the steps are positive, so the guard
`steps <= 0` of `DayActionInfo` is never taken and the result is the one computed
without it. -/
theorem steps_guard_unreachable (data : String) (weight height : ℚ)
    (hp : (parsePackage data).2.2 = none) :
    ¬ ((parsePackage data).1 ≤ 0) ∧
    DayActionInfo data weight height =
      (match spentcalories.WalkingSpentCalories (parsePackage data).1 weight height
          (parsePackage data).2.1 with
        | (_, some _) => ""
        | (calories, none) =>
          report (parsePackage data).1 (((parsePackage data).1 : ℚ) * stepLength / mInKm)
            calories) := by
  obtain ⟨steps, duration, hs, hd, _, _, _, heq⟩ := parsePackage_accepts data hp
  rw [heq]
  refine ⟨not_le.mpr hs, ?_⟩
  simp only [DayActionInfo, heq, not_le.mpr hs, if_false]

open daysteps in
/-- Witness of C20: the record `"1000,30m"`. -/
theorem steps_guard_unreachable_witness : ¬ ((parsePackage "1000,30m").1 ≤ 0) :=
  (steps_guard_unreachable "1000,30m" 75 (7 / 4) (by decide)).1

/-! ## Results of the parsers and of `TrainingInfo` -/

open daysteps in
theorem daysteps.parsePackage_error_zero (data : String) (e : TrackerError)
    (h : (parsePackage data).2.2 = some e) :
    parsePackage data = (0, 0, some e) := by
  by_cases h1 : (strings.Split data.toList ',').length = 2
  swap
  · simp only [parsePackage, h1, if_true, if_false, not_true_eq_false, not_false_eq_true,
      ne_eq] at h ⊢
    rw [h]
  by_cases h2 : strings.TrimSpace ((strings.Split data.toList ',').getD 0 []) = []
  · simp only [parsePackage, h1, h2, if_true, if_false, not_true_eq_false, not_false_eq_true,
      ne_eq] at h ⊢
    rw [h]
  cases hA : strconv.Atoi (strings.TrimSpace ((strings.Split data.toList ',').getD 0 [])) with
  | error err =>
    simp only [parsePackage, h1, h2, hA, if_true, if_false, not_true_eq_false,
      not_false_eq_true, ne_eq] at h ⊢
    rw [h]
  | ok steps =>
    by_cases h4 : steps ≤ 0
    · simp only [parsePackage, h1, h2, hA, h4, if_true, if_false, not_true_eq_false,
        not_false_eq_true, ne_eq] at h ⊢
      rw [h]
    by_cases h6 : strings.TrimSpace ((strings.Split data.toList ',').getD 1 []) = []
    · simp only [parsePackage, h1, h2, hA, h4, h6, if_true, if_false, not_true_eq_false,
        not_false_eq_true, ne_eq] at h ⊢
      rw [h]
    cases hD : time.ParseDuration
        (strings.TrimSpace ((strings.Split data.toList ',').getD 1 [])) with
    | error err =>
      simp only [parsePackage, h1, h2, hA, h4, h6, hD, if_true, if_false, not_true_eq_false,
        not_false_eq_true, ne_eq] at h ⊢
      rw [h]
    | ok duration =>
      by_cases h8 : duration ≤ 0
      · simp only [parsePackage, h1, h2, hA, h4, h6, hD, h8, if_true, if_false,
          not_true_eq_false, not_false_eq_true, ne_eq] at h ⊢
        rw [h]
      simp only [parsePackage, h1, h2, hA, h4, h6, hD, h8, if_true, if_false,
        not_true_eq_false, not_false_eq_true, ne_eq, reduceCtorEq] at h

open spentcalories daysteps in
/-- C12: when `parseTraining` or `parsePackage` returns no error the steps and the
duration are positive and the label is the trimmed second field, not empty; when it
returns an error every other component is the zero value. -/
theorem parse_results_total (data : String) :
    ((parseTraining data).2.2.2 = none →
      0 < (parseTraining data).1 ∧ 0 < (parseTraining data).2.2.1 ∧
      (parseTraining data).2.1 ≠ "" ∧
      (parseTraining data).2.1 =
        String.mk (strings.TrimSpace ((strings.Split data.toList ',').getD 1 []))) ∧
    (∀ e, (parseTraining data).2.2.2 = some e → parseTraining data = (0, "", 0, some e)) ∧
    ((parsePackage data).2.2 = none →
      0 < (parsePackage data).1 ∧ 0 < (parsePackage data).2.1) ∧
    (∀ e, (parsePackage data).2.2 = some e → parsePackage data = (0, 0, some e)) ∧
    parseTraining " 3456 , Бег ,45m0s" = (3456, "Бег", 2700000000000, none) ∧
    parseTraining "3456,Бег,-45m" = (0, "", 0, some .durationNonPositive) ∧
    parsePackage "1000,30m" = (1000, 1800000000000, none) ∧
    parsePackage "1000,0" = (0, 0, some .durationNonPositive) := by
  refine ⟨?_, parseTraining_error_zero data, ?_, parsePackage_error_zero data,
    by decide, by decide, by decide, by decide⟩
  · intro h
    obtain ⟨steps, duration, hs, hd, _, _, hl, _, heq⟩ := parseTraining_accepts data h
    rw [heq]
    refine ⟨hs, hd, ?_, rfl⟩
    intro hnil
    apply hl
    have := congrArg String.data hnil
    simpa using this
  · intro h
    obtain ⟨steps, duration, hs, hd, _, _, _, heq⟩ := parsePackage_accepts data h
    rw [heq]
    exact ⟨hs, hd⟩

open spentcalories in
/-- C17: `TrainingInfo` returns no error exactly when `parseTraining` accepts the
record, the label is `"Ходьба"` or `"Бег"` and weight and height are positive; after
a successful parse steps and duration are positive, so the calorie functions never
return their steps or duration error, and an unknown label is reported whatever
weight and height are. -/
theorem training_info_succeeds_iff (data : String) (weight height : ℚ) :
    ((TrainingInfo data weight height).2 = none ↔
      ((parseTraining data).2.2.2 = none ∧
        ((parseTraining data).2.1 = "Ходьба" ∨ (parseTraining data).2.1 = "Бег") ∧
        0 < weight ∧ 0 < height)) ∧
    ((parseTraining data).2.2.2 = none →
      ¬ ((parseTraining data).1 ≤ 0) ∧ ¬ ((parseTraining data).2.2.1 ≤ 0) ∧
      (TrainingInfo data weight height).2 ≠ some .stepsNonPositive ∧
      (TrainingInfo data weight height).2 ≠ some .durationNonPositive) ∧
    ((parseTraining data).2.2.2 = none → (parseTraining data).2.1 ≠ "Ходьба" →
      (parseTraining data).2.1 ≠ "Бег" →
      TrainingInfo data weight height = ("", some .unknownActivity)) ∧
    TrainingInfo "1000,Плавание,10m" 0 (-1) = ("", some .unknownActivity) ∧
    TrainingInfo "1000,Бег,10m" 0 (-1) = ("", some .weightNonPositive) := by
  have hB : ¬ ("Бег" = "Ходьба") := by decide
  have key : ∀ steps label duration, 0 < steps → 0 < duration →
      parseTraining data = (steps, label, duration, none) →
      ((TrainingInfo data weight height).2 = none ↔
        ((label = "Ходьба" ∨ label = "Бег") ∧ 0 < weight ∧ 0 < height)) ∧
      (TrainingInfo data weight height).2 ≠ some .stepsNonPositive ∧
      (TrainingInfo data weight height).2 ≠ some .durationNonPositive ∧
      (label ≠ "Ходьба" → label ≠ "Бег" →
        TrainingInfo data weight height = ("", some .unknownActivity)) := by
    intro steps label duration hs hd heq
    by_cases hl1 : label = "Ходьба"
    · subst hl1
      by_cases hw : weight ≤ 0
      · simp [TrainingInfo, heq, WalkingSpentCalories, not_le.mpr hs, hw, not_lt.mpr hw]
      · by_cases hh : height ≤ 0
        · simp [TrainingInfo, heq, WalkingSpentCalories, not_le.mpr hs, hw, hh,
            not_lt.mpr hh]
        · simp [TrainingInfo, heq, WalkingSpentCalories, not_le.mpr hs, hw, hh,
            not_le.mpr hd, not_le.mp hw, not_le.mp hh]
    · by_cases hl2 : label = "Бег"
      · subst hl2
        by_cases hw : weight ≤ 0
        · simp [TrainingInfo, heq, hB, RunningSpentCalories, not_le.mpr hs, hw,
            not_lt.mpr hw]
        · by_cases hh : height ≤ 0
          · simp [TrainingInfo, heq, hB, RunningSpentCalories, not_le.mpr hs, hw, hh,
              not_lt.mpr hh]
          · simp [TrainingInfo, heq, hB, RunningSpentCalories, not_le.mpr hs, hw, hh,
              not_le.mpr hd, not_le.mp hw, not_le.mp hh]
      · simp [TrainingInfo, heq, hl1, hl2]
  refine ⟨?_, ?_, ?_, by decide, by decide⟩
  · cases hp : (parseTraining data).2.2.2 with
    | some e =>
      rw [show TrainingInfo data weight height = ("", some e) by
        simp only [TrainingInfo, parseTraining_error_zero data e hp]]
      simp
    | none =>
      obtain ⟨steps, duration, hs, hd, _, _, _, _, heq⟩ := parseTraining_accepts data hp
      rw [(key _ _ _ hs hd heq).1, heq]
      simp
  · intro hp
    obtain ⟨steps, duration, hs, hd, _, _, _, _, heq⟩ := parseTraining_accepts data hp
    have k := key _ _ _ hs hd heq
    rw [heq]
    exact ⟨not_le.mpr hs, not_le.mpr hd, k.2.1, k.2.2.1⟩
  · intro hp h1 h2
    obtain ⟨steps, duration, hs, hd, _, _, _, _, heq⟩ := parseTraining_accepts data hp
    rw [heq] at h1 h2
    exact (key _ _ _ hs hd heq).2.2.2 h1 h2

/-! ## The five lines of the training report -/

theorem fmt.roundHalfEven_near (q : ℚ) (hq : 0 ≤ q) :
    |((fmt.roundHalfEven q : Nat) : ℚ) - q| ≤ 1 / 2 := by
  have hfl : 0 ≤ ⌊q⌋ := Int.floor_nonneg.mpr hq
  have hcast : ((⌊q⌋.toNat : Nat) : ℚ) = ((⌊q⌋ : Int) : ℚ) := by
    have : ((⌊q⌋.toNat : Nat) : Int) = ⌊q⌋ := Int.toNat_of_nonneg hfl
    exact_mod_cast this
  have h1 : ((⌊q⌋ : Int) : ℚ) ≤ q := Int.floor_le q
  have h2 : q < ((⌊q⌋ : Int) : ℚ) + 1 := Int.lt_floor_add_one q
  unfold fmt.roundHalfEven
  simp only []
  rw [hcast]
  split_ifs with ha hb hc
  · rw [hcast, abs_le]
    constructor <;> linarith
  · push_cast
    rw [hcast, abs_le]
    constructor <;> linarith
  · rw [hcast, abs_le]
    constructor <;> linarith
  · push_cast
    rw [hcast, abs_le]
    constructor <;> linarith

theorem Nat.repr_length_one (k : Nat) (hk : k < 10) : (Nat.repr k).length = 1 := by
  interval_cases k <;> rfl

theorem fmt.formatF2_shape (x : ℚ) :
    ∃ ip a b : Nat, a < 10 ∧ b < 10 ∧
      fmt.formatF2 x =
        (if x < 0 then "-" else "") ++ Nat.repr ip ++ "." ++ Nat.repr a ++ Nat.repr b ∧
      (Nat.repr a).length = 1 ∧ (Nat.repr b).length = 1 ∧
      abs (((ip * 100 + a * 10 + b : Nat) : ℚ) / 100 - abs x) ≤ 1 / 200 := by
  refine ⟨fmt.roundHalfEven (|x| * 100) / 100, fmt.roundHalfEven (|x| * 100) % 100 / 10,
    fmt.roundHalfEven (|x| * 100) % 10, by omega, by omega, rfl,
    Nat.repr_length_one _ (by omega), Nat.repr_length_one _ (by omega), ?_⟩
  have hn : fmt.roundHalfEven (|x| * 100) / 100 * 100 +
      fmt.roundHalfEven (|x| * 100) % 100 / 10 * 10 + fmt.roundHalfEven (|x| * 100) % 10 =
      fmt.roundHalfEven (|x| * 100) := by omega
  rw [hn]
  have hnear := fmt.roundHalfEven_near (|x| * 100) (by positivity)
  rw [abs_le] at hnear ⊢
  constructor <;> linarith [hnear.1, hnear.2]

open spentcalories in
theorem spentcalories.TrainingInfo_success (data : String) (weight height : ℚ)
    (steps : Int) (label : String) (duration : Int)
    (hp : parseTraining data = (steps, label, duration, none))
    (hok : (TrainingInfo data weight height).2 = none) :
    (label = "Ходьба" ∨ label = "Бег") ∧
    TrainingInfo data weight height =
      (report label (time.Hours duration) (distance steps height)
        (meanSpeed steps height duration)
        (if label = "Ходьба" then WalkingSpentCalories steps weight height duration
          else RunningSpentCalories steps weight height duration).1, none) := by
  have hB : ¬ ("Бег" = "Ходьба") := by decide
  by_cases hl1 : label = "Ходьба"
  · subst hl1
    rcases hW : WalkingSpentCalories steps weight height duration with ⟨c, err⟩
    cases err with
    | some e => simp [TrainingInfo, hp, hW] at hok
    | none =>
      refine ⟨Or.inl rfl, ?_⟩
      simp only [TrainingInfo, hp, if_true, hW]
  · by_cases hl2 : label = "Бег"
    · subst hl2
      rcases hR : RunningSpentCalories steps weight height duration with ⟨c, err⟩
      cases err with
      | some e => simp [TrainingInfo, hp, hB, hR] at hok
      | none =>
        refine ⟨Or.inr rfl, ?_⟩
        simp only [TrainingInfo, hp, hB, if_true, if_false, hR]
    · simp [TrainingInfo, hp, hl1, hl2] at hok

/-! ## White space around the fields -/

theorem List.rdropWhile_append_of_pos {α : Type} (p : α → Bool) (t r : List α)
    (h : ∀ a ∈ r, p a = true) : List.rdropWhile p (t ++ r) = List.rdropWhile p t := by
  unfold List.rdropWhile
  rw [List.reverse_append, List.dropWhile_append_of_pos]
  intro a ha
  exact h a (List.mem_reverse.mp ha)

theorem strings.TrimSpace_pad (l a r : List Char)
    (hl : ∀ x ∈ l, unicode.IsSpace x = true) (hr : ∀ x ∈ r, unicode.IsSpace x = true) :
    strings.TrimSpace (l ++ a ++ r) = strings.TrimSpace a := by
  unfold strings.TrimSpace
  rw [List.append_assoc, List.dropWhile_append_of_pos hl, List.dropWhile_append]
  split
  · rename_i hemp
    have hnil : List.dropWhile unicode.IsSpace a = [] := List.isEmpty_iff.mp hemp
    have hrnil : List.dropWhile unicode.IsSpace r = [] := List.dropWhile_eq_nil_iff.mpr hr
    rw [hnil, hrnil]
  · exact List.rdropWhile_append_of_pos _ _ _ hr

theorem strings.splitFields_append_sep (sep : Char) (y : List Char) :
    ∀ x : List Char, strings.splitFields sep (x ++ sep :: y) =
      ((strings.splitFields sep x).1, (strings.splitFields sep x).2 ++ strings.Split y sep) := by
  intro x
  induction x with
  | nil => simp [strings.Split, strings.splitFields]
  | cons c x ih =>
    rw [List.cons_append]
    simp only [strings.splitFields]
    rw [ih]
    by_cases hc : c = sep
    · simp only [hc, if_true, List.cons_append]
    · simp only [hc, if_false]

theorem strings.Split_append_sep (sep : Char) (x y : List Char) :
    strings.Split (x ++ sep :: y) sep = strings.Split x sep ++ strings.Split y sep := by
  have h := strings.splitFields_append_sep sep y x
  unfold strings.Split at h ⊢
  rw [h]
  rfl

theorem strings.Split_no_sep (sep : Char) :
    ∀ s : List Char, (∀ c ∈ s, c ≠ sep) → strings.Split s sep = [s] := by
  intro s
  induction s with
  | nil => intro _; rfl
  | cons c s ih =>
    intro h
    have hc : c ≠ sep := h c (List.mem_cons_self _ _)
    have := ih (fun x hx => h x (List.mem_cons_of_mem _ hx))
    unfold strings.Split at this ⊢
    simp only [strings.splitFields, hc, if_false]
    simp only [List.cons.injEq] at this ⊢
    exact ⟨⟨trivial, this.1⟩, this.2⟩

theorem strings.Split_length (sep : Char) :
    ∀ s : List Char, (strings.Split s sep).length = s.count sep + 1 := by
  intro s
  induction s with
  | nil => rfl
  | cons c s ih =>
    unfold strings.Split at ih ⊢
    simp only [strings.splitFields]
    by_cases hc : c = sep
    · subst hc
      simp only [if_true, List.length_cons, List.count_cons_self] at ih ⊢
      omega
    · simp only [hc, if_false, List.length_cons] at ih ⊢
      rw [List.count_cons_of_ne (Ne.symm hc)]
      exact ih

theorem unicode.IsSpace_ne_comma (l : List Char) (h : ∀ x ∈ l, unicode.IsSpace x = true) :
    ∀ x ∈ l, x ≠ ',' := by
  intro x hx hc
  have := h x hx
  rw [hc] at this
  exact absurd this (by decide)

theorem strings.count_pad (l a r : List Char) (hl : ∀ x ∈ l, unicode.IsSpace x = true)
    (hr : ∀ x ∈ r, unicode.IsSpace x = true) :
    (l ++ a ++ r).count ',' = a.count ',' := by
  have h1 : l.count ',' = 0 :=
    List.count_eq_zero.mpr (fun hm => unicode.IsSpace_ne_comma l hl ',' hm rfl)
  have h2 : r.count ',' = 0 :=
    List.count_eq_zero.mpr (fun hm => unicode.IsSpace_ne_comma r hr ',' hm rfl)
  rw [List.count_append, List.count_append, h1, h2]
  omega

open spentcalories in
theorem spentcalories.parseTraining_congr (d1 d2 : String)
    (hlen : (strings.Split d1.toList ',').length = (strings.Split d2.toList ',').length)
    (hf : (strings.Split d2.toList ',').length = 3 →
      strings.TrimSpace ((strings.Split d1.toList ',').getD 0 []) =
        strings.TrimSpace ((strings.Split d2.toList ',').getD 0 []) ∧
      strings.TrimSpace ((strings.Split d1.toList ',').getD 1 []) =
        strings.TrimSpace ((strings.Split d2.toList ',').getD 1 []) ∧
      strings.TrimSpace ((strings.Split d1.toList ',').getD 2 []) =
        strings.TrimSpace ((strings.Split d2.toList ',').getD 2 [])) :
    parseTraining d1 = parseTraining d2 := by
  by_cases h3 : (strings.Split d2.toList ',').length = 3
  · obtain ⟨h0, h1, h2⟩ := hf h3
    unfold parseTraining
    simp only [hlen, h0, h1, h2]
  · have h3' : (strings.Split d1.toList ',').length ≠ 3 := by rw [hlen]; exact h3
    unfold parseTraining
    simp only []
    rw [if_pos h3', if_pos h3, hlen]

open daysteps in
theorem daysteps.parsePackage_congr (d1 d2 : String)
    (hlen : (strings.Split d1.toList ',').length = (strings.Split d2.toList ',').length)
    (hf : (strings.Split d2.toList ',').length = 2 →
      strings.TrimSpace ((strings.Split d1.toList ',').getD 0 []) =
        strings.TrimSpace ((strings.Split d2.toList ',').getD 0 []) ∧
      strings.TrimSpace ((strings.Split d1.toList ',').getD 1 []) =
        strings.TrimSpace ((strings.Split d2.toList ',').getD 1 [])) :
    parsePackage d1 = parsePackage d2 := by
  by_cases h3 : (strings.Split d2.toList ',').length = 2
  · obtain ⟨h0, h1⟩ := hf h3
    unfold parsePackage
    simp only [hlen, h0, h1]
  · have h3' : (strings.Split d1.toList ',').length ≠ 2 := by rw [hlen]; exact h3
    unfold parsePackage
    simp only []
    rw [if_pos h3', if_pos h3, hlen]

open spentcalories daysteps in
/-- C16: white space around the fields does not change the result of the parsers:
with `l1 .. r3` made of white space (spaces, tabs, newlines or any other character
of `unicode.IsSpace`), `parseTraining` returns the same value or error on the padded
record as on `a,b,c`, and `parsePackage` the same on the padded record as on `a,b`. -/
theorem parsers_ignore_padding (a b c l1 r1 l2 r2 l3 r3 : List Char)
    (hl1 : ∀ x ∈ l1, unicode.IsSpace x = true) (hr1 : ∀ x ∈ r1, unicode.IsSpace x = true)
    (hl2 : ∀ x ∈ l2, unicode.IsSpace x = true) (hr2 : ∀ x ∈ r2, unicode.IsSpace x = true)
    (hl3 : ∀ x ∈ l3, unicode.IsSpace x = true) (hr3 : ∀ x ∈ r3, unicode.IsSpace x = true) :
    parseTraining (String.mk
        ((l1 ++ a ++ r1) ++ ',' :: ((l2 ++ b ++ r2) ++ ',' :: (l3 ++ c ++ r3)))) =
      parseTraining (String.mk (a ++ ',' :: (b ++ ',' :: c))) ∧
    parsePackage (String.mk ((l1 ++ a ++ r1) ++ ',' :: (l2 ++ b ++ r2))) =
      parsePackage (String.mk (a ++ ',' :: b)) := by
  have ca := strings.count_pad l1 a r1 hl1 hr1
  have cb := strings.count_pad l2 b r2 hl2 hr2
  have cc := strings.count_pad l3 c r3 hl3 hr3
  constructor
  · apply parseTraining_congr
    · simp only [String.toList, strings.Split_append_sep, List.length_append,
        strings.Split_length, ca, cb, cc]
    · intro h3
      simp only [String.toList, strings.Split_append_sep, List.length_append,
        strings.Split_length] at h3
      have ha : ∀ x ∈ a, x ≠ ',' := by
        intro x hx hc
        have : a.count ',' = 0 := by omega
        exact List.count_eq_zero.mp this (hc ▸ hx)
      have hb : ∀ x ∈ b, x ≠ ',' := by
        intro x hx hc
        have : b.count ',' = 0 := by omega
        exact List.count_eq_zero.mp this (hc ▸ hx)
      have hc' : ∀ x ∈ c, x ≠ ',' := by
        intro x hx hc
        have : c.count ',' = 0 := by omega
        exact List.count_eq_zero.mp this (hc ▸ hx)
      have hA : ∀ x ∈ l1 ++ a ++ r1, x ≠ ',' := by
        intro x hx
        rcases List.mem_append.mp hx with hx | hx
        · rcases List.mem_append.mp hx with hx | hx
          · exact unicode.IsSpace_ne_comma l1 hl1 x hx
          · exact ha x hx
        · exact unicode.IsSpace_ne_comma r1 hr1 x hx
      have hB : ∀ x ∈ l2 ++ b ++ r2, x ≠ ',' := by
        intro x hx
        rcases List.mem_append.mp hx with hx | hx
        · rcases List.mem_append.mp hx with hx | hx
          · exact unicode.IsSpace_ne_comma l2 hl2 x hx
          · exact hb x hx
        · exact unicode.IsSpace_ne_comma r2 hr2 x hx
      have hC : ∀ x ∈ l3 ++ c ++ r3, x ≠ ',' := by
        intro x hx
        rcases List.mem_append.mp hx with hx | hx
        · rcases List.mem_append.mp hx with hx | hx
          · exact unicode.IsSpace_ne_comma l3 hl3 x hx
          · exact hc' x hx
        · exact unicode.IsSpace_ne_comma r3 hr3 x hx
      simp only [String.toList, strings.Split_append_sep, strings.Split_no_sep ',' _ hA,
        strings.Split_no_sep ',' _ hB, strings.Split_no_sep ',' _ hC,
        strings.Split_no_sep ',' _ ha, strings.Split_no_sep ',' _ hb,
        strings.Split_no_sep ',' _ hc', List.cons_append, List.nil_append,
        List.getD_cons_zero, List.getD_cons_succ, strings.TrimSpace_pad _ _ _ hl1 hr1,
        strings.TrimSpace_pad _ _ _ hl2 hr2, strings.TrimSpace_pad _ _ _ hl3 hr3, and_self]
  · apply parsePackage_congr
    · simp only [String.toList, strings.Split_append_sep, List.length_append,
        strings.Split_length, ca, cb]
    · intro h3
      simp only [String.toList, strings.Split_append_sep, List.length_append,
        strings.Split_length] at h3
      have ha : ∀ x ∈ a, x ≠ ',' := by
        intro x hx hc
        have : a.count ',' = 0 := by omega
        exact List.count_eq_zero.mp this (hc ▸ hx)
      have hb : ∀ x ∈ b, x ≠ ',' := by
        intro x hx hc
        have : b.count ',' = 0 := by omega
        exact List.count_eq_zero.mp this (hc ▸ hx)
      have hA : ∀ x ∈ l1 ++ a ++ r1, x ≠ ',' := by
        intro x hx
        rcases List.mem_append.mp hx with hx | hx
        · rcases List.mem_append.mp hx with hx | hx
          · exact unicode.IsSpace_ne_comma l1 hl1 x hx
          · exact ha x hx
        · exact unicode.IsSpace_ne_comma r1 hr1 x hx
      have hB : ∀ x ∈ l2 ++ b ++ r2, x ≠ ',' := by
        intro x hx
        rcases List.mem_append.mp hx with hx | hx
        · rcases List.mem_append.mp hx with hx | hx
          · exact unicode.IsSpace_ne_comma l2 hl2 x hx
          · exact hb x hx
        · exact unicode.IsSpace_ne_comma r2 hr2 x hx
      simp only [String.toList, strings.Split_append_sep, strings.Split_no_sep ',' _ hA,
        strings.Split_no_sep ',' _ hB, strings.Split_no_sep ',' _ ha,
        strings.Split_no_sep ',' _ hb, List.cons_append, List.nil_append,
        List.getD_cons_zero, List.getD_cons_succ, strings.TrimSpace_pad _ _ _ hl1 hr1,
        strings.TrimSpace_pad _ _ _ hl2 hr2, and_self]

open spentcalories in
/-- Witness of C16: the running record of the specification padded with spaces, a
tab and a newline. -/
theorem parsers_ignore_padding_witness :
    parseTraining " 3456\t, Бег ,\n45m0s  " = parseTraining "3456,Бег,45m0s" :=
  (parsers_ignore_padding "3456".toList "Бег".toList "45m0s".toList
    " ".toList "\t".toList " ".toList " ".toList "\n".toList "  ".toList
    (by decide) (by decide) (by decide) (by decide) (by decide) (by decide)).1

/-! ## What the program prints, in `float64` -/

theorem float64.log2Fuel_eq (fuel : Nat) :
    ∀ n, n ≤ fuel → float64.log2Fuel fuel n = Nat.log2 n := by
  induction fuel with
  | zero =>
    intro n hn
    have : n = 0 := Nat.le_zero.mp hn
    subst this
    rw [Nat.log2]
    simp [float64.log2Fuel]
  | succ fuel ih =>
    intro n hn
    rw [Nat.log2]
    simp only [float64.log2Fuel]
    by_cases h2 : n < 2
    · simp [h2, not_le.mpr h2]
    · have h2' : n ≥ 2 := not_lt.mp h2
      simp only [h2, if_false, h2', if_true]
      rw [ih (n / 2) (by omega)]

/-- The fuel of `float64.log2` is enough: it is the binary logarithm. -/
theorem float64.log2_eq (n : Nat) : float64.log2 n = Nat.log2 n :=
  float64.log2Fuel_eq n n (Nat.le_refl n)

theorem float64.F64.format_no_newline (x : float64.F64) :
    ∀ c ∈ x.format.data, c ≠ '\n' := by
  cases x with
  | fin q => exact fmt.formatF2_no_newline q
  | posInf => decide
  | negInf => decide
  | nan => decide

open float64 in
theorem spentcalories.f64.Walking_ok (steps : Int) (weight height : F64) (duration : Int)
    (hs : 0 < steps) (hw : weight.le0 = false) (hh : height.le0 = false)
    (hd : 0 < duration) :
    spentcalories.f64.WalkingSpentCalories steps weight height duration =
      ((weight * spentcalories.f64.meanSpeed steps height duration *
          time.f64.Minutes duration) / ofRat 60 * ofRat (1 / 2), none) := by
  simp only [spentcalories.f64.WalkingSpentCalories, not_le.mpr hs, hw, hh, not_le.mpr hd,
    if_false, Bool.false_eq_true, spentcalories.minInH,
    spentcalories.walkingCaloriesCoefficient]

open float64 in
theorem spentcalories.f64.Running_ok (steps : Int) (weight height : F64) (duration : Int)
    (hs : 0 < steps) (hw : weight.le0 = false) (hh : height.le0 = false)
    (hd : 0 < duration) :
    spentcalories.f64.RunningSpentCalories steps weight height duration =
      ((weight * spentcalories.f64.meanSpeed steps height duration *
          time.f64.Minutes duration) / ofRat 60, none) := by
  simp only [spentcalories.f64.RunningSpentCalories, not_le.mpr hs, hw, hh, not_le.mpr hd,
    if_false, Bool.false_eq_true, spentcalories.minInH]

open float64 daysteps in
theorem daysteps.f64.DayActionInfo_lines (data : String) (weight height : F64)
    (steps duration : Int) (hp : parsePackage data = (steps, duration, none))
    (hw : weight.le0 = false) (hh : height.le0 = false) :
    strings.Split (daysteps.f64.DayActionInfo data weight height).toList '\n' =
      [("Количество шагов: " ++ fmt.formatInt steps ++ ".").toList,
       ("Дистанция составила " ++ (ofInt steps * ofRat (65 / 100) / ofRat 1000).format ++
          " км.").toList,
       ("Вы сожгли " ++
          (spentcalories.f64.WalkingSpentCalories steps weight height duration).1.format ++
          " ккал.").toList,
       []] := by
  obtain ⟨s', d', hs, hd, _, _, _, heq⟩ := parsePackage_accepts data (by rw [hp])
  rw [hp] at heq
  simp only [Prod.mk.injEq] at heq
  obtain ⟨rfl, rfl, _⟩ := heq
  have hW := spentcalories.f64.Walking_ok steps weight height duration hs hw hh hd
  rw [hW]
  simp only [daysteps.f64.DayActionInfo, hp, not_le.mpr hs, if_false, hW, stepLength, mInKm]
  generalize (weight * spentcalories.f64.meanSpeed steps height duration *
    time.f64.Minutes duration) / ofRat 60 * ofRat (1 / 2) = cal
  generalize ofInt steps * ofRat (65 / 100) / ofRat 1000 = dist
  have e1 : (daysteps.f64.report steps dist cal).toList =
      ("Количество шагов: " ++ fmt.formatInt steps ++ ".").toList ++ '\n' ::
        (("Дистанция составила " ++ dist.format ++ " км.").toList ++ '\n' ::
          (("Вы сожгли " ++ cal.format ++ " ккал.").toList ++ '\n' :: [])) := by
    simp only [daysteps.f64.report, String.toList, String.data_append]
    simp only [List.append_assoc, List.cons_append, List.nil_append]
  rw [e1, strings.Split_append, strings.Split_append, strings.Split_append]
  · rfl
  · intro c hc
    simp only [String.toList, String.data_append, List.mem_append] at hc
    rcases hc with (h | h) | h
    · revert c; decide
    · exact F64.format_no_newline _ c h
    · revert c; decide
  · intro c hc
    simp only [String.toList, String.data_append, List.mem_append] at hc
    rcases hc with (h | h) | h
    · revert c; decide
    · exact F64.format_no_newline _ c h
    · revert c; decide
  · intro c hc
    simp only [String.toList, String.data_append, List.mem_append] at hc
    rcases hc with (h | h) | h
    · revert c; decide
    · exact fmt.formatInt_no_newline _ c h
    · revert c; decide

open float64 daysteps in
/-- C5: on a record that `parsePackage` accepts, with weight and height passing the
guards `weight <= 0` and `height <= 0` (in particular both positive),
`DayActionInfo` returns three lines: the first carries the parsed step count, the
second the `float64` value of `float64(steps) * 0.65 / 1000` printed with `%.2f` (no
weight or height in it), the third the walking calories. -/
theorem day_action_report (data : String) (weight height : F64) (steps duration : Int)
    (hp : parsePackage data = (steps, duration, none))
    (hw : weight.le0 = false) (hh : height.le0 = false) :
    strings.Split (daysteps.f64.DayActionInfo data weight height).toList '\n' =
      [("Количество шагов: " ++ fmt.formatInt steps ++ ".").toList,
       ("Дистанция составила " ++ (ofInt steps * ofRat (65 / 100) / ofRat 1000).format ++
          " км.").toList,
       ("Вы сожгли " ++
          (spentcalories.f64.WalkingSpentCalories steps weight height duration).1.format ++
          " ккал.").toList,
       []] ∧
    daysteps.f64.DayActionInfo "1000,30m" (ofRat 75) (ofRat (7 / 4)) =
      "Количество шагов: 1000.\nДистанция составила 0.65 км.\nВы сожгли 29.53 ккал.\n" ∧
    daysteps.f64.DayActionInfo "100,30m" (ofRat 75) (ofRat (7 / 4)) =
      "Количество шагов: 100.\nДистанция составила 0.07 км.\nВы сожгли 2.95 ккал.\n" :=
  ⟨daysteps.f64.DayActionInfo_lines data weight height steps duration hp hw hh,
    by decide!, by decide!⟩

open float64 daysteps in
/-- Witness of C5: the record `"1000,30m"` at 75 kg and 1.75 m. -/
theorem day_action_report_witness :
    strings.Split (daysteps.f64.DayActionInfo "1000,30m" (ofRat 75) (ofRat (7 / 4))).toList
        '\n' =
      ["Количество шагов: 1000.".toList, "Дистанция составила 0.65 км.".toList,
       "Вы сожгли 29.53 ккал.".toList, []] :=
  ((day_action_report "1000,30m" (ofRat 75) (ofRat (7 / 4)) 1000 1800000000000 (by decide)
    (by decide!) (by decide!)).1).trans (by decide!)

theorem float64.pow2_pos (e : Int) : 0 < float64.pow2 e := by
  unfold float64.pow2
  split_ifs
  · positivity
  · positivity

/-- Rounding to `float64` moves a positive rational by at most half the spacing
`2^(e-52)` of its binade. -/
theorem float64.roundPos_near (q r : ℚ) (hq : 0 < q)
    (hr : float64.roundPos q = .fin r) :
    abs (r - q) ≤ float64.pow2 (max (float64.ilog2 q) (-1022) - 52) / 2 := by
  unfold float64.roundPos at hr
  simp only [] at hr
  split_ifs at hr
  simp only [float64.F64.fin.injEq] at hr
  have hu := float64.pow2_pos (max (float64.ilog2 q) (-1022) - 52)
  generalize float64.pow2 (max (float64.ilog2 q) (-1022) - 52) = ulp at hr hu ⊢
  have hnear := fmt.roundHalfEven_near (q / ulp) (le_of_lt (div_pos hq hu))
  rw [← hr]
  have hq' : q = q / ulp * ulp := by field_simp
  rw [abs_le] at hnear ⊢
  constructor
  · nlinarith [hnear.1, hnear.2]
  · nlinarith [hnear.1, hnear.2]

open float64 spentcalories in
theorem spentcalories.f64.TrainingInfo_f64_success (data : String) (weight height : F64)
    (steps : Int) (label : String) (duration : Int)
    (hp : parseTraining data = (steps, label, duration, none))
    (hok : (spentcalories.f64.TrainingInfo data weight height).2 = none) :
    (label = "Ходьба" ∨ label = "Бег") ∧
    spentcalories.f64.TrainingInfo data weight height =
      (spentcalories.f64.report label (time.f64.Hours duration)
        (spentcalories.f64.distance steps height)
        (spentcalories.f64.meanSpeed steps height duration)
        (if label = "Ходьба" then
            spentcalories.f64.WalkingSpentCalories steps weight height duration
          else spentcalories.f64.RunningSpentCalories steps weight height duration).1,
        none) := by
  have hB : ¬ ("Бег" = "Ходьба") := by decide
  by_cases hl1 : label = "Ходьба"
  · subst hl1
    rcases hW : spentcalories.f64.WalkingSpentCalories steps weight height duration with
      ⟨c, err⟩
    cases err with
    | some e => simp [spentcalories.f64.TrainingInfo, hp, hW] at hok
    | none =>
      refine ⟨Or.inl rfl, ?_⟩
      simp only [spentcalories.f64.TrainingInfo, hp, if_true, hW]
  · by_cases hl2 : label = "Бег"
    · subst hl2
      rcases hR : spentcalories.f64.RunningSpentCalories steps weight height duration with
        ⟨c, err⟩
      cases err with
      | some e => simp [spentcalories.f64.TrainingInfo, hp, hB, hR] at hok
      | none =>
        refine ⟨Or.inr rfl, ?_⟩
        simp only [spentcalories.f64.TrainingInfo, hp, hB, if_true, if_false, hR]
    · simp [spentcalories.f64.TrainingInfo, hp, hl1, hl2] at hok

open float64 spentcalories in
/-- C13: on success `TrainingInfo` returns five lines, each ended by a newline, in
the order activity type (the parsed label), duration in hours, distance, mean
speed and the calories of the function chosen by the label, each number being the
`float64` computed and printed with `%.2f`: for a finite value an integer part, a
period and two digits, at most 0.005 from the value. -/
theorem training_report_lines (data : String) (weight height : F64)
    (steps : Int) (label : String) (duration : Int)
    (hp : parseTraining data = (steps, label, duration, none))
    (hok : (spentcalories.f64.TrainingInfo data weight height).2 = none) :
    (label = "Ходьба" ∨ label = "Бег") ∧
    strings.Split (spentcalories.f64.TrainingInfo data weight height).1.toList '\n' =
      [("Тип тренировки: " ++ label).toList,
       ("Длительность: " ++ (time.f64.Hours duration).format ++ " ч.").toList,
       ("Дистанция: " ++ (spentcalories.f64.distance steps height).format ++ " км.").toList,
       ("Скорость: " ++ (spentcalories.f64.meanSpeed steps height duration).format ++
          " км/ч").toList,
       ("Сожгли калорий: " ++
          (if label = "Ходьба" then
              spentcalories.f64.WalkingSpentCalories steps weight height duration
            else
              spentcalories.f64.RunningSpentCalories steps weight height duration).1.format
          ).toList,
       []] ∧
    (∀ x : ℚ, (F64.fin x).format = fmt.formatF2 x ∧ ∃ ip a b : Nat, a < 10 ∧ b < 10 ∧
      fmt.formatF2 x =
        (if x < 0 then "-" else "") ++ Nat.repr ip ++ "." ++ Nat.repr a ++ Nat.repr b ∧
      (Nat.repr a).length = 1 ∧ (Nat.repr b).length = 1 ∧
      abs (((ip * 100 + a * 10 + b : Nat) : ℚ) / 100 - abs x) ≤ 1 / 200) ∧
    spentcalories.f64.TrainingInfo "1000, Бег ,10m" (ofRat 75) (ofRat (7 / 4)) =
      ("Тип тренировки: Бег\nДлительность: 0.17 ч.\nДистанция: 0.79 км.\n" ++
        "Скорость: 4.73 км/ч\nСожгли калорий: 59.06\n", none) ∧
    spentcalories.f64.TrainingInfo "1000,Ходьба,18s" (ofRat 75) (ofRat (7 / 4)) =
      ("Тип тренировки: Ходьба\nДлительность: 0.01 ч.\nДистанция: 0.79 км.\n" ++
        "Скорость: 157.50 км/ч\nСожгли калорий: 29.53\n", none) := by
  obtain ⟨hl, heq⟩ :=
    spentcalories.f64.TrainingInfo_f64_success data weight height steps label duration hp hok
  refine ⟨hl, ?_, fun x => ⟨rfl, fmt.formatF2_shape x⟩, by decide!, by decide!⟩
  rw [heq]
  simp only []
  generalize (if label = "Ходьба" then
      spentcalories.f64.WalkingSpentCalories steps weight height duration
    else spentcalories.f64.RunningSpentCalories steps weight height duration).1 = cal
  generalize time.f64.Hours duration = hours
  generalize spentcalories.f64.distance steps height = dist
  generalize spentcalories.f64.meanSpeed steps height duration = speed
  have hlabel : ∀ c ∈ label.data, c ≠ '\n' := by
    rcases hl with rfl | rfl <;> decide
  have e1 : (spentcalories.f64.report label hours dist speed cal).toList =
      ("Тип тренировки: " ++ label).toList ++ '\n' ::
        (("Длительность: " ++ hours.format ++ " ч.").toList ++ '\n' ::
          (("Дистанция: " ++ dist.format ++ " км.").toList ++ '\n' ::
            (("Скорость: " ++ speed.format ++ " км/ч").toList ++ '\n' ::
              (("Сожгли калорий: " ++ cal.format).toList ++ '\n' :: [])))) := by
    simp only [spentcalories.f64.report, String.toList, String.data_append]
    simp only [List.append_assoc, List.cons_append, List.nil_append]
  rw [e1, strings.Split_append, strings.Split_append, strings.Split_append,
    strings.Split_append, strings.Split_append]
  · rfl
  · intro c hc
    simp only [String.toList, String.data_append, List.mem_append] at hc
    rcases hc with h | h
    · revert c; decide
    · exact F64.format_no_newline _ c h
  · intro c hc
    simp only [String.toList, String.data_append, List.mem_append] at hc
    rcases hc with (h | h) | h
    · revert c; decide
    · exact F64.format_no_newline _ c h
    · revert c; decide
  · intro c hc
    simp only [String.toList, String.data_append, List.mem_append] at hc
    rcases hc with (h | h) | h
    · revert c; decide
    · exact F64.format_no_newline _ c h
    · revert c; decide
  · intro c hc
    simp only [String.toList, String.data_append, List.mem_append] at hc
    rcases hc with (h | h) | h
    · revert c; decide
    · exact F64.format_no_newline _ c h
    · revert c; decide
  · intro c hc
    simp only [String.toList, String.data_append, List.mem_append] at hc
    rcases hc with h | h
    · revert c; decide
    · exact hlabel c h

open float64 spentcalories in
/-- Witness of C13: the running record of the specification. -/
theorem training_report_lines_witness :
    strings.Split (spentcalories.f64.TrainingInfo "3456,Бег,45m0s" (ofRat 75)
        (ofRat (7 / 4))).1.toList '\n' =
      ["Тип тренировки: Бег".toList, "Длительность: 0.75 ч.".toList,
       "Дистанция: 2.72 км.".toList, "Скорость: 3.63 км/ч".toList,
       "Сожгли калорий: 204.12".toList, []] :=
  ((training_report_lines "3456,Бег,45m0s" (ofRat 75) (ofRat (7 / 4)) 3456 "Бег"
    2700000000000 (by decide) (by decide!)).2.1).trans (by decide!)

/-! ## The two readings of `float64` take the same branches -/

open float64 in
theorem spentcalories.f64.Walking_error_eq (steps : Int) (w h : ℚ) (duration : Int) :
    (spentcalories.f64.WalkingSpentCalories steps (.fin w) (.fin h) duration).2 =
      (spentcalories.WalkingSpentCalories steps w h duration).2 := by
  by_cases hs : steps ≤ 0
  · simp [spentcalories.f64.WalkingSpentCalories, spentcalories.WalkingSpentCalories, hs]
  · by_cases hw : w ≤ 0
    · simp [spentcalories.f64.WalkingSpentCalories, spentcalories.WalkingSpentCalories, hs,
        hw, F64.le0]
    · by_cases hh : h ≤ 0
      · simp [spentcalories.f64.WalkingSpentCalories, spentcalories.WalkingSpentCalories, hs,
          hw, hh, F64.le0]
      · by_cases hd : duration ≤ 0
        · simp [spentcalories.f64.WalkingSpentCalories, spentcalories.WalkingSpentCalories,
            hs, hw, hh, hd, F64.le0]
        · simp [spentcalories.f64.WalkingSpentCalories, spentcalories.WalkingSpentCalories,
            hs, hw, hh, hd, F64.le0]

open float64 in
theorem spentcalories.f64.Running_error_eq (steps : Int) (w h : ℚ) (duration : Int) :
    (spentcalories.f64.RunningSpentCalories steps (.fin w) (.fin h) duration).2 =
      (spentcalories.RunningSpentCalories steps w h duration).2 := by
  by_cases hs : steps ≤ 0
  · simp [spentcalories.f64.RunningSpentCalories, spentcalories.RunningSpentCalories, hs]
  · by_cases hw : w ≤ 0
    · simp [spentcalories.f64.RunningSpentCalories, spentcalories.RunningSpentCalories, hs,
        hw, F64.le0]
    · by_cases hh : h ≤ 0
      · simp [spentcalories.f64.RunningSpentCalories, spentcalories.RunningSpentCalories, hs,
          hw, hh, F64.le0]
      · by_cases hd : duration ≤ 0
        · simp [spentcalories.f64.RunningSpentCalories, spentcalories.RunningSpentCalories,
            hs, hw, hh, hd, F64.le0]
        · simp [spentcalories.f64.RunningSpentCalories, spentcalories.RunningSpentCalories,
            hs, hw, hh, hd, F64.le0]

open float64 in
/-- On finite weight and height the `float64` reading of `TrainingInfo` returns the
same error as the exact one. -/
theorem spentcalories.f64.TrainingInfo_error_eq (data : String) (w h : ℚ) :
    (spentcalories.f64.TrainingInfo data (.fin w) (.fin h)).2 =
      (spentcalories.TrainingInfo data w h).2 := by
  rcases hp : spentcalories.parseTraining data with ⟨steps, label, duration, err⟩
  cases err with
  | some e => simp only [spentcalories.f64.TrainingInfo, spentcalories.TrainingInfo, hp]
  | none =>
    have hB : ¬ ("Бег" = "Ходьба") := by decide
    by_cases hl1 : label = "Ходьба"
    · subst hl1
      have he := spentcalories.f64.Walking_error_eq steps w h duration
      rcases hW : spentcalories.WalkingSpentCalories steps w h duration with ⟨c, e⟩
      rcases hF : spentcalories.f64.WalkingSpentCalories steps (.fin w) (.fin h) duration with
        ⟨c', e'⟩
      rw [hW, hF] at he
      simp only at he
      subst he
      cases e' <;>
        simp only [spentcalories.f64.TrainingInfo, spentcalories.TrainingInfo, hp, if_true,
          hW, hF]
    · by_cases hl2 : label = "Бег"
      · subst hl2
        have he := spentcalories.f64.Running_error_eq steps w h duration
        rcases hR : spentcalories.RunningSpentCalories steps w h duration with ⟨c, e⟩
        rcases hF : spentcalories.f64.RunningSpentCalories steps (.fin w) (.fin h) duration
          with ⟨c', e'⟩
        rw [hR, hF] at he
        simp only at he
        subst he
        cases e' <;>
          simp only [spentcalories.f64.TrainingInfo, spentcalories.TrainingInfo, hp, hB,
            if_true, if_false, hR, hF]
      · simp only [spentcalories.f64.TrainingInfo, spentcalories.TrainingInfo, hp, hl1, hl2,
          if_false]

theorem daysteps.f64.dayReport_f64_ne_empty (steps : Int)
    (distanceKm calories : float64.F64) :
    daysteps.f64.report steps distanceKm calories ≠ "" := by
  unfold daysteps.f64.report
  repeat apply String.append_ne_empty_left
  decide

open float64 in
/-- On finite weight and height the `float64` reading of `DayActionInfo` is empty
exactly when the exact one is. -/
theorem daysteps.f64.DayActionInfo_empty_eq (data : String) (w h : ℚ) :
    daysteps.f64.DayActionInfo data (.fin w) (.fin h) = "" ↔
      daysteps.DayActionInfo data w h = "" := by
  rcases hp : daysteps.parsePackage data with ⟨steps, duration, err⟩
  cases err with
  | some e => simp only [daysteps.f64.DayActionInfo, daysteps.DayActionInfo, hp]
  | none =>
    by_cases hs : steps ≤ 0
    · simp only [daysteps.f64.DayActionInfo, daysteps.DayActionInfo, hp, hs, if_true]
    · have he := spentcalories.f64.Walking_error_eq steps w h duration
      rcases hW : spentcalories.WalkingSpentCalories steps w h duration with ⟨c, e⟩
      rcases hF : spentcalories.f64.WalkingSpentCalories steps (.fin w) (.fin h) duration with
        ⟨c', e'⟩
      rw [hW, hF] at he
      simp only at he
      subst he
      cases e' with
      | some e =>
        simp only [daysteps.f64.DayActionInfo, daysteps.DayActionInfo, hp, hs, if_false, hW,
          hF]
      | none =>
        simp only [daysteps.f64.DayActionInfo, daysteps.DayActionInfo, hp, hs, if_false, hW,
          hF]
        constructor
        · intro h1
          exact absurd h1 (daysteps.f64.dayReport_f64_ne_empty _ _ _)
        · intro h1
          exact absurd h1 (daysteps.dayReport_ne_empty _ _ _)
